import Mathlib

/-!
# micro-gen projection engine: read models, in-memory repositories, projection services

A shallow embedding of the Go sources under `internal/entity`, `pkg/projection`
and `internal/usecase/projection`.

Conventions of the embedding.

* A Go method with a pointer receiver that may write to its receiver becomes a
  function returning the receiver's new value next to the method's result.
* A Go `error` result is an `Option GoError`, `none` standing for `nil`.
* A Go pointer result that the caller tests against `nil` is an `Option`.
* The repositories hold `*OrderReadModel` / `*UserReadModel`.  No function of the
  sources writes through such a pointer (the three transitions of `ApplyEvent`
  have empty bodies), so the embedding stores the pointed-to values.
* A pointer argument that a method dereferences unconditionally (`model.GetID()` in `Save`)
  is a value: the nil pointer, on which the call panics, is outside the embedding.
* `context.Context` arguments are never inspected by the sources and are left out.
* `sync.RWMutex` is left out: every method body runs under the lock from its
  first to its last statement, so a method is one atomic step on the state.
-/

namespace MicroGen

/-! ## Collaborators declared outside the listed sources -/

/-- Go `error` values, compared by identity as `err != projection.ErrReadModelNotFound`
does: the sentinel of the `projection` package and any other error, told apart by its message. -/
inductive GoError where
  | readModelNotFound
  | other (msg : String)
  deriving DecidableEq, Repr

/-- Modelled from the spec: the sentinel `projection.ErrReadModelNotFound`, whose declaration
is not among the sources; the `NotFound` kind a repository signals when no row exists. -/
def ErrReadModelNotFound : GoError := GoError.readModelNotFound

/-- An instant (`time.Time`), as a count of nanoseconds; `0` is the zero value. -/
abbrev Time := Int

/-- An untyped payload value (`interface{}` in `map[string]interface{}`). -/
inductive Value where
  | null
  | bool (b : Bool)
  | num (q : Rat)
  | str (s : String)
  deriving DecidableEq, Repr

/-- Modelled from the spec: the interface `entity.DomainEvent`, whose declaration is not among
the sources; an event exposes its aggregate id, its event type and its data, a mapping from
field name to an untyped value. -/
structure DomainEvent where
  GetAggregateID : String
  GetEventType : String
  GetData : List (String × Value)
  deriving DecidableEq, Repr

/-- Modelled from the spec: the base record `projection.ReadModel`, whose declaration is not
among the sources; identity, type tag, version, timestamps and the soft-delete marker. -/
structure ReadModel where
  id : String
  type : String
  version : Int
  createdAt : Time
  updatedAt : Time
  deleted : Bool
  deriving DecidableEq, Repr

/-- Modelled from the spec: the constructor `projection.NewReadModel(id, type)`, which is not
among the sources; a model seeded with that id and type tag, not yet applied to (version 0,
not deleted), both timestamps set to the time of construction `now`. -/
def NewReadModel (now : Time) (id : String) (type : String) : ReadModel :=
  { id := id, type := type, version := 0, createdAt := now, updatedAt := now, deleted := false }

/-- Modelled from the spec: the accessor `(*ReadModel).GetID`, which is not among the sources;
it returns the immutable `id`. -/
def ReadModel.GetID (m : ReadModel) : String := m.id

/-! ## Value objects (`internal/entity/address.go`, `email.go`, `phone.go`) -/

/-- The value object `Address`. -/
structure Address where
  street : String
  city : String
  zipCode : String
  deriving DecidableEq, Repr

/-- The constructor `NewAddress`. -/
def NewAddress (street : String) (city : String) (zipcode : String) : Address :=
  { street := street, city := city, zipCode := zipcode }

/-- The method `Address.Equals`; `reflect.DeepEqual` on two strings is string equality. -/
def Address.Equals (v other : Address) : Bool :=
  if !(v.street == other.street) then false
  else if !(v.city == other.city) then false
  else if !(v.zipCode == other.zipCode) then false
  else true

/-- The value object `Email`. -/
structure Email where
  address : String
  verified : Bool
  deriving DecidableEq, Repr

/-- The constructor `NewEmail`. -/
def NewEmail (address : String) (verified : Bool) : Email :=
  { address := address, verified := verified }

/-- The method `Email.Equals`. -/
def Email.Equals (v other : Email) : Bool :=
  if !(v.address == other.address) then false
  else if !(v.verified == other.verified) then false
  else true

/-- The value object `Phone`. -/
structure Phone where
  number : String
  countryCode : String
  deriving DecidableEq, Repr

/-- The constructor `NewPhone`. -/
def NewPhone (number : String) (countrycode : String) : Phone :=
  { number := number, countryCode := countrycode }

/-- The method `Phone.Equals`. -/
def Phone.Equals (v other : Phone) : Bool :=
  if !(v.number == other.number) then false
  else if !(v.countryCode == other.countryCode) then false
  else true

/-! ## Read models (`internal/entity/order_read_model.go`, `user_read_model.go`) -/

/-- The struct `OrderReadModel`: the embedded base and the business fields.  `Totalamount`
is a `float64` that the sources only hold, never compute with; it is kept as its value. -/
structure OrderReadModel where
  ReadModel : MicroGen.ReadModel
  Orderid : String
  Userid : String
  Totalamount : Rat
  Shippingaddress : Address
  Status : String
  Createdat : Time
  deriving DecidableEq, Repr

/-- The promoted accessor `GetID` of the embedded base. -/
def OrderReadModel.GetID (m : OrderReadModel) : String := m.ReadModel.GetID

/-- The constructor `NewOrderReadModel`: only the base is set, every business field keeps
its Go zero value. -/
def NewOrderReadModel (now : Time) (id : String) : OrderReadModel :=
  { ReadModel := NewReadModel now id "order"
    Orderid := ""
    Userid := ""
    Totalamount := 0
    Shippingaddress := { street := "", city := "", zipCode := "" }
    Status := ""
    Createdat := 0 }

/-- The method `applyCreated`: it reads the event data into a local and returns `nil`;
the field mapping is a TODO in the source. -/
def OrderReadModel.applyCreated (m : OrderReadModel) (event : DomainEvent) :
    OrderReadModel × Option GoError :=
  let _data := event.GetData
  (m, none)

/-- The method `applyUpdated`: it reads the event data, discards it and returns `nil`. -/
def OrderReadModel.applyUpdated (m : OrderReadModel) (event : DomainEvent) :
    OrderReadModel × Option GoError :=
  let _data := event.GetData
  (m, none)

/-- The method `applyDeleted`: its body is `return nil`. -/
def OrderReadModel.applyDeleted (m : OrderReadModel) (_event : DomainEvent) :
    OrderReadModel × Option GoError :=
  (m, none)

/-- The method `ApplyEvent`: dispatch on the event type string. -/
def OrderReadModel.ApplyEvent (m : OrderReadModel) (event : DomainEvent) :
    OrderReadModel × Option GoError :=
  if event.GetEventType = "OrderCreated" then m.applyCreated event
  else if event.GetEventType = "OrderUpdated" then m.applyUpdated event
  else if event.GetEventType = "OrderDeleted" then m.applyDeleted event
  else (m, none)

/-- The struct `UserReadModel`: the embedded base and the business fields. -/
structure UserReadModel where
  ReadModel : MicroGen.ReadModel
  Userid : String
  Username : String
  Email : MicroGen.Email
  Address : MicroGen.Address
  Phone : MicroGen.Phone
  Createdat : Time
  Updatedat : Time
  deriving DecidableEq, Repr

/-- The promoted accessor `GetID` of the embedded base. -/
def UserReadModel.GetID (m : UserReadModel) : String := m.ReadModel.GetID

/-- The constructor `NewUserReadModel`: only the base is set. -/
def NewUserReadModel (now : Time) (id : String) : UserReadModel :=
  { ReadModel := NewReadModel now id "user"
    Userid := ""
    Username := ""
    Email := { address := "", verified := false }
    Address := { street := "", city := "", zipCode := "" }
    Phone := { number := "", countryCode := "" }
    Createdat := 0
    Updatedat := 0 }

/-- The method `applyCreated` of the user model. -/
def UserReadModel.applyCreated (m : UserReadModel) (event : DomainEvent) :
    UserReadModel × Option GoError :=
  let _data := event.GetData
  (m, none)

/-- The method `applyUpdated` of the user model. -/
def UserReadModel.applyUpdated (m : UserReadModel) (event : DomainEvent) :
    UserReadModel × Option GoError :=
  let _data := event.GetData
  (m, none)

/-- The method `applyDeleted` of the user model: its body is `return nil`. -/
def UserReadModel.applyDeleted (m : UserReadModel) (_event : DomainEvent) :
    UserReadModel × Option GoError :=
  (m, none)

/-- The method `ApplyEvent` of the user model. -/
def UserReadModel.ApplyEvent (m : UserReadModel) (event : DomainEvent) :
    UserReadModel × Option GoError :=
  if event.GetEventType = "UserCreated" then m.applyCreated event
  else if event.GetEventType = "UserUpdated" then m.applyUpdated event
  else if event.GetEventType = "UserDeleted" then m.applyDeleted event
  else (m, none)

/-! ## Go maps keyed by string -/

/-- A Go `map[string]β` as the list of its entries.  Go leaves the order of iteration
unspecified; the list order is the order `range` visits the entries in. -/
abbrev GoMap (β : Type) := List (String × β)

/-- The lookup `v, ok := m[k]`. -/
def GoMap.get? {β : Type} : GoMap β → String → Option β
  | [], _ => none
  | (k', v) :: rest, k => if k' = k then some v else GoMap.get? rest k

/-- The assignment `m[k] = v`: the entry of `k` is replaced, or a new entry is added. -/
def GoMap.set {β : Type} : GoMap β → String → β → GoMap β
  | [], k, v => [(k, v)]
  | (k', v') :: rest, k, v => if k' = k then (k, v) :: rest else (k', v') :: GoMap.set rest k v

/-- The builtin `delete(m, k)`. -/
def GoMap.delete {β : Type} (m : GoMap β) (k : String) : GoMap β :=
  m.filter (fun kv => decide (kv.1 ≠ k))

/-- The keys of a map, in iteration order. -/
def GoMap.keys {β : Type} (m : GoMap β) : List String := m.map Prod.fst

/-- The values of a map, in iteration order. -/
def GoMap.values {β : Type} (m : GoMap β) : List β := m.map Prod.snd

/-- A map is keyed by `f` when no key occurs twice and every entry sits under the key `f`
gives its value: the shape of `models` in a repository, whose only writes are
`r.models[model.GetID()] = model` and `delete(r.models, id)`. -/
def GoMap.KeyedBy {β : Type} (f : β → String) (m : GoMap β) : Prop :=
  m.keys.Nodup ∧ ∀ kv ∈ m, f kv.2 = kv.1

instance GoMap.decidableKeyedBy {β : Type} (f : β → String) (m : GoMap β) :
    Decidable (GoMap.KeyedBy f m) := by
  unfold GoMap.KeyedBy
  infer_instance

/-! ## In-memory repositories (`pkg/projection/order_repository.go`, `user_repository.go`) -/

/-- The struct `MemoryOrderRepository`: the map from id to model. -/
structure MemoryOrderRepository where
  models : GoMap OrderReadModel
  deriving DecidableEq, Repr

/-- The constructor `NewMemoryOrderRepository`: an empty map. -/
def NewMemoryOrderRepository : MemoryOrderRepository := { models := [] }

/-- The method `Save`: `r.models[model.GetID()] = model; return nil`. -/
def MemoryOrderRepository.Save (r : MemoryOrderRepository) (model : OrderReadModel) :
    MemoryOrderRepository × Option GoError :=
  ({ models := r.models.set model.GetID model }, none)

/-- The method `FindByID`: the stored model, or no model and `ErrReadModelNotFound`. -/
def MemoryOrderRepository.FindByID (r : MemoryOrderRepository) (id : String) :
    Option OrderReadModel × Option GoError :=
  match r.models.get? id with
  | some model => (some model, none)
  | none => (none, some ErrReadModelNotFound)

/-- The method `FindAll`: every value of the map appended to `result` in iteration order. -/
def MemoryOrderRepository.FindAll (r : MemoryOrderRepository) :
    List OrderReadModel × Option GoError :=
  (r.models.foldl (fun result kv => result ++ [kv.2]) [], none)

/-- The method `Delete`: `delete(r.models, id); return nil`. -/
def MemoryOrderRepository.Delete (r : MemoryOrderRepository) (id : String) :
    MemoryOrderRepository × Option GoError :=
  ({ models := r.models.delete id }, none)

/-- The struct `MemoryUserRepository`: the map from id to model. -/
structure MemoryUserRepository where
  models : GoMap UserReadModel
  deriving DecidableEq, Repr

/-- The constructor `NewMemoryUserRepository`: an empty map. -/
def NewMemoryUserRepository : MemoryUserRepository := { models := [] }

/-- The method `Save` of the user repository. -/
def MemoryUserRepository.Save (r : MemoryUserRepository) (model : UserReadModel) :
    MemoryUserRepository × Option GoError :=
  ({ models := r.models.set model.GetID model }, none)

/-- The method `FindByID` of the user repository. -/
def MemoryUserRepository.FindByID (r : MemoryUserRepository) (id : String) :
    Option UserReadModel × Option GoError :=
  match r.models.get? id with
  | some model => (some model, none)
  | none => (none, some ErrReadModelNotFound)

/-- The method `FindAll` of the user repository. -/
def MemoryUserRepository.FindAll (r : MemoryUserRepository) :
    List UserReadModel × Option GoError :=
  (r.models.foldl (fun result kv => result ++ [kv.2]) [], none)

/-- The method `Delete` of the user repository. -/
def MemoryUserRepository.Delete (r : MemoryUserRepository) (id : String) :
    MemoryUserRepository × Option GoError :=
  ({ models := r.models.delete id }, none)

/-- A call a client can make on the order repository to change it. -/
inductive OrderRepoCall where
  | Save (model : OrderReadModel)
  | Delete (id : String)
  deriving DecidableEq, Repr

/-- The repository after one call. -/
def MemoryOrderRepository.step (r : MemoryOrderRepository) : OrderRepoCall → MemoryOrderRepository
  | .Save model => (r.Save model).1
  | .Delete id => (r.Delete id).1

/-- The repository reached from `NewMemoryOrderRepository` by a sequence of calls. -/
def MemoryOrderRepository.run (calls : List OrderRepoCall) : MemoryOrderRepository :=
  calls.foldl MemoryOrderRepository.step NewMemoryOrderRepository

/-- A call a client can make on the user repository to change it. -/
inductive UserRepoCall where
  | Save (model : UserReadModel)
  | Delete (id : String)
  deriving DecidableEq, Repr

/-- The user repository after one call. -/
def MemoryUserRepository.step (r : MemoryUserRepository) : UserRepoCall → MemoryUserRepository
  | .Save model => (r.Save model).1
  | .Delete id => (r.Delete id).1

/-- The repository reached from `NewMemoryUserRepository` by a sequence of calls. -/
def MemoryUserRepository.run (calls : List UserRepoCall) : MemoryUserRepository :=
  calls.foldl MemoryUserRepository.step NewMemoryUserRepository

/-! ## Projection services (`internal/usecase/projection/order_service.go`, `user_service.go`) -/

/-- The interface `OrderRepository` over a store whose state has type `σ`: each method gets
the state and returns the state it leaves next to its Go results. -/
structure OrderRepository (σ : Type) where
  Save : σ → OrderReadModel → σ × Option GoError
  FindByID : σ → String → σ × (Option OrderReadModel × Option GoError)
  FindAll : σ → σ × (List OrderReadModel × Option GoError)
  Delete : σ → String → σ × Option GoError

/-- The struct `OrderProjectionService`. -/
structure OrderProjectionService (σ : Type) where
  repo : OrderRepository σ

/-- The constructor `NewOrderProjectionService`. -/
def NewOrderProjectionService {σ : Type} (repo : OrderRepository σ) : OrderProjectionService σ :=
  { repo := repo }

/-- The method `HandleEvent`: load, create when nothing was loaded, apply, save.  `now` is
the clock reading a fresh model is stamped with. -/
def OrderProjectionService.HandleEvent {σ : Type} (s : OrderProjectionService σ) (now : Time)
    (st : σ) (event : DomainEvent) : σ × Option GoError :=
  match s.repo.FindByID st event.GetAggregateID with
  | (st1, (existing, err)) =>
    if err ≠ none ∧ err ≠ some ErrReadModelNotFound then (st1, err)
    else
      let model : OrderReadModel :=
        match existing with
        | some found => found
        | none => NewOrderReadModel now event.GetAggregateID
      match model.ApplyEvent event with
      | (_, some err) => (st1, some err)
      | (model, none) => s.repo.Save st1 model

/-- The method `GetOrder`: a pass-through to `FindByID`. -/
def OrderProjectionService.GetOrder {σ : Type} (s : OrderProjectionService σ) (st : σ)
    (id : String) : σ × (Option OrderReadModel × Option GoError) :=
  s.repo.FindByID st id

/-- The method `GetAllOrders`: a pass-through to `FindAll`. -/
def OrderProjectionService.GetAllOrders {σ : Type} (s : OrderProjectionService σ) (st : σ) :
    σ × (List OrderReadModel × Option GoError) :=
  s.repo.FindAll st

/-- The interface `UserRepository` over a store whose state has type `σ`. -/
structure UserRepository (σ : Type) where
  Save : σ → UserReadModel → σ × Option GoError
  FindByID : σ → String → σ × (Option UserReadModel × Option GoError)
  FindAll : σ → σ × (List UserReadModel × Option GoError)
  Delete : σ → String → σ × Option GoError

/-- The struct `UserProjectionService`. -/
structure UserProjectionService (σ : Type) where
  repo : UserRepository σ

/-- The constructor `NewUserProjectionService`. -/
def NewUserProjectionService {σ : Type} (repo : UserRepository σ) : UserProjectionService σ :=
  { repo := repo }

/-- The method `HandleEvent` of the user service. -/
def UserProjectionService.HandleEvent {σ : Type} (s : UserProjectionService σ) (now : Time)
    (st : σ) (event : DomainEvent) : σ × Option GoError :=
  match s.repo.FindByID st event.GetAggregateID with
  | (st1, (existing, err)) =>
    if err ≠ none ∧ err ≠ some ErrReadModelNotFound then (st1, err)
    else
      let model : UserReadModel :=
        match existing with
        | some found => found
        | none => NewUserReadModel now event.GetAggregateID
      match model.ApplyEvent event with
      | (_, some err) => (st1, some err)
      | (model, none) => s.repo.Save st1 model

/-- The method `GetUser`: a pass-through to `FindByID`. -/
def UserProjectionService.GetUser {σ : Type} (s : UserProjectionService σ) (st : σ)
    (id : String) : σ × (Option UserReadModel × Option GoError) :=
  s.repo.FindByID st id

/-- The method `GetAllUsers`: a pass-through to `FindAll`. -/
def UserProjectionService.GetAllUsers {σ : Type} (s : UserProjectionService σ) (st : σ) :
    σ × (List UserReadModel × Option GoError) :=
  s.repo.FindAll st

/-- The in-memory order repository as an `OrderRepository`; its reads leave the state as is. -/
def MemoryOrderRepository.asOrderRepository : OrderRepository MemoryOrderRepository :=
  { Save := fun r model => r.Save model
    FindByID := fun r id => (r, r.FindByID id)
    FindAll := fun r => (r, r.FindAll)
    Delete := fun r id => r.Delete id }

/-- The in-memory user repository as a `UserRepository`. -/
def MemoryUserRepository.asUserRepository : UserRepository MemoryUserRepository :=
  { Save := fun r model => r.Save model
    FindByID := fun r id => (r, r.FindByID id)
    FindAll := fun r => (r, r.FindAll)
    Delete := fun r id => r.Delete id }

/-- The order projection service wired to the in-memory repository. -/
def memoryOrderService : OrderProjectionService MemoryOrderRepository :=
  NewOrderProjectionService MemoryOrderRepository.asOrderRepository

/-- The user projection service wired to the in-memory repository. -/
def memoryUserService : UserProjectionService MemoryUserRepository :=
  NewUserProjectionService MemoryUserRepository.asUserRepository

/-- A recording wrapper around an order repository: it forwards every call and appends each
model passed to `Save` to a log kept next to the wrapped state. -/
def OrderRepository.recording {σ : Type} (repo : OrderRepository σ) :
    OrderRepository (σ × List OrderReadModel) :=
  { Save := fun st model => (((repo.Save st.1 model).1, st.2 ++ [model]), (repo.Save st.1 model).2)
    FindByID := fun st id => (((repo.FindByID st.1 id).1, st.2), (repo.FindByID st.1 id).2)
    FindAll := fun st => (((repo.FindAll st.1).1, st.2), (repo.FindAll st.1).2)
    Delete := fun st id => (((repo.Delete st.1 id).1, st.2), (repo.Delete st.1 id).2) }

/-- A recording wrapper around a user repository, logging each model passed to `Save`. -/
def UserRepository.recording {σ : Type} (repo : UserRepository σ) :
    UserRepository (σ × List UserReadModel) :=
  { Save := fun st model => (((repo.Save st.1 model).1, st.2 ++ [model]), (repo.Save st.1 model).2)
    FindByID := fun st id => (((repo.FindByID st.1 id).1, st.2), (repo.FindByID st.1 id).2)
    FindAll := fun st => (((repo.FindAll st.1).1, st.2), (repo.FindAll st.1).2)
    Delete := fun st id => (((repo.Delete st.1 id).1, st.2), (repo.Delete st.1 id).2) }

/-! ## Runs of the services over the in-memory repositories -/

/-- A call a client can make on the in-memory order repository or on the projection service
wired to it. -/
inductive OrderServiceCall where
  | Save (model : OrderReadModel)
  | Delete (id : String)
  | HandleEvent (now : Time) (event : DomainEvent)
  deriving DecidableEq, Repr

/-- The order repository after one call on it or on its service. -/
def MemoryOrderRepository.serviceStep (r : MemoryOrderRepository) :
    OrderServiceCall → MemoryOrderRepository
  | .Save model => (r.Save model).1
  | .Delete id => (r.Delete id).1
  | .HandleEvent now event => (memoryOrderService.HandleEvent now r event).1

/-- The repository reached from `NewMemoryOrderRepository` by a sequence of `Save`, `Delete`
and `HandleEvent` calls. -/
def MemoryOrderRepository.serviceRun (calls : List OrderServiceCall) : MemoryOrderRepository :=
  calls.foldl MemoryOrderRepository.serviceStep NewMemoryOrderRepository

/-- The order repository after handling a sequence of events, each at its clock reading. -/
def MemoryOrderRepository.handleAll (r : MemoryOrderRepository)
    (events : List (Time × DomainEvent)) : MemoryOrderRepository :=
  events.foldl (fun st ev => (memoryOrderService.HandleEvent ev.1 st ev.2).1) r

/-- A call a client can make on the in-memory user repository or on the projection service
wired to it. -/
inductive UserServiceCall where
  | Save (model : UserReadModel)
  | Delete (id : String)
  | HandleEvent (now : Time) (event : DomainEvent)
  deriving DecidableEq, Repr

/-- The user repository after one call on it or on its service. -/
def MemoryUserRepository.serviceStep (r : MemoryUserRepository) :
    UserServiceCall → MemoryUserRepository
  | .Save model => (r.Save model).1
  | .Delete id => (r.Delete id).1
  | .HandleEvent now event => (memoryUserService.HandleEvent now r event).1

/-- The repository reached from `NewMemoryUserRepository` by a sequence of `Save`, `Delete`
and `HandleEvent` calls. -/
def MemoryUserRepository.serviceRun (calls : List UserServiceCall) : MemoryUserRepository :=
  calls.foldl MemoryUserRepository.serviceStep NewMemoryUserRepository

/-- The user repository after handling a sequence of events, each at its clock reading. -/
def MemoryUserRepository.handleAll (r : MemoryUserRepository)
    (events : List (Time × DomainEvent)) : MemoryUserRepository :=
  events.foldl (fun st ev => (memoryUserService.HandleEvent ev.1 st ev.2).1) r

/-! ## Sample values -/

/-- An `OrderCreated` event for aggregate `"o1"` carrying `total_amount: 100, status: "pending"`. -/
def sampleCreated : DomainEvent :=
  { GetAggregateID := "o1"
    GetEventType := "OrderCreated"
    GetData := [("total_amount", Value.num 100), ("status", Value.str "pending")] }

/-- An `OrderUpdated` event for aggregate `"o1"` carrying `status: "shipped"`. -/
def sampleUpdated : DomainEvent :=
  { GetAggregateID := "o1"
    GetEventType := "OrderUpdated"
    GetData := [("status", Value.str "shipped")] }

/-- An `OrderDeleted` event for aggregate `"o1"`, with an empty payload. -/
def sampleDeleted : DomainEvent :=
  { GetAggregateID := "o1", GetEventType := "OrderDeleted", GetData := [] }

/-- An event of a type neither read model knows, `PaymentReceived`, for aggregate `"o1"`. -/
def samplePayment : DomainEvent :=
  { GetAggregateID := "o1"
    GetEventType := "PaymentReceived"
    GetData := [("amount", Value.num 100)] }

/-- An `OrderCreated` event for `"o1"` whose payload is ill-typed: the amount is a string
and the status is missing. -/
def sampleMalformed : DomainEvent :=
  { GetAggregateID := "o1"
    GetEventType := "OrderCreated"
    GetData := [("total_amount", Value.str "a lot")] }

/-- An order model for `"o1"` with every business field set: version 1, not deleted. -/
def sampleOrder : OrderReadModel :=
  { ReadModel := { id := "o1", type := "order", version := 1, createdAt := 5, updatedAt := 5,
                   deleted := false }
    Orderid := "o1"
    Userid := "u7"
    Totalamount := 100
    Shippingaddress := NewAddress "1 Main St" "Springfield" "12345"
    Status := "pending"
    Createdat := 5 }

/-- A user model for `"u7"`. -/
def sampleUser : UserReadModel :=
  { ReadModel := { id := "u7", type := "user", version := 1, createdAt := 5, updatedAt := 5,
                   deleted := false }
    Userid := "u7"
    Username := "ann"
    Email := NewEmail "ann@example.org" true
    Address := NewAddress "1 Main St" "Springfield" "12345"
    Phone := NewPhone "5550100" "1"
    Createdat := 5
    Updatedat := 5 }

/-- A test double for the order store: in state `0` it is unreachable and every load fails
with a storage error; in any other state every load returns `sampleOrder`.  `Save` succeeds
and moves the store to the next state. -/
def flakyOrderRepository : OrderRepository Nat :=
  { Save := fun n _ => (n + 1, none)
    FindByID := fun n _ =>
      if n = 0 then (n, (none, some (GoError.other "storage failure")))
      else (n, (some sampleOrder, none))
    FindAll := fun n => (n, ([], none))
    Delete := fun n _ => (n, none) }

/-- A test double for the user store, as `flakyOrderRepository`. -/
def flakyUserRepository : UserRepository Nat :=
  { Save := fun n _ => (n + 1, none)
    FindByID := fun n _ =>
      if n = 0 then (n, (none, some (GoError.other "storage failure")))
      else (n, (some sampleUser, none))
    FindAll := fun n => (n, ([], none))
    Delete := fun n _ => (n, none) }

/-! ## Lemmas on Go maps -/

theorem GoMap.get?_set_self {β : Type} (m : GoMap β) (k : String) (v : β) :
    GoMap.get? (GoMap.set m k v) k = some v := by
  induction m with
  | nil => simp [GoMap.set, GoMap.get?]
  | cons kv rest ih =>
    obtain ⟨k', v'⟩ := kv
    by_cases h : k' = k
    · simp [GoMap.set, GoMap.get?, h]
    · simp [GoMap.set, GoMap.get?, h, ih]

theorem GoMap.get?_set_ne {β : Type} (m : GoMap β) (k j : String) (v : β) (hj : j ≠ k) :
    GoMap.get? (GoMap.set m k v) j = GoMap.get? m j := by
  induction m with
  | nil => simp [GoMap.set, GoMap.get?, Ne.symm hj]
  | cons kv rest ih =>
    obtain ⟨k', v'⟩ := kv
    by_cases h : k' = k
    · subst h
      simp [GoMap.set, GoMap.get?, Ne.symm hj]
    · by_cases h2 : k' = j
      · subst h2
        simp [GoMap.set, GoMap.get?, h]
      · simp [GoMap.set, GoMap.get?, h, h2, ih]

theorem GoMap.get?_delete_self {β : Type} (m : GoMap β) (k : String) :
    GoMap.get? (GoMap.delete m k) k = none := by
  induction m with
  | nil => simp [GoMap.delete, GoMap.get?]
  | cons kv rest ih =>
    obtain ⟨k', v'⟩ := kv
    by_cases h : k' = k
    · simpa [GoMap.delete, List.filter_cons, h] using ih
    · simpa [GoMap.delete, List.filter_cons, h, GoMap.get?] using ih

theorem GoMap.get?_delete_ne {β : Type} (m : GoMap β) (k j : String) (hj : j ≠ k) :
    GoMap.get? (GoMap.delete m k) j = GoMap.get? m j := by
  induction m with
  | nil => simp [GoMap.delete, GoMap.get?]
  | cons kv rest ih =>
    obtain ⟨k', v'⟩ := kv
    by_cases h : k' = k
    · subst h
      simpa [GoMap.delete, List.filter_cons, GoMap.get?, Ne.symm hj] using ih
    · by_cases h2 : k' = j
      · subst h2
        simp [GoMap.delete, List.filter_cons, h, GoMap.get?]
      · simpa [GoMap.delete, List.filter_cons, h, GoMap.get?, h2] using ih

theorem GoMap.delete_delete {β : Type} (m : GoMap β) (k : String) :
    GoMap.delete (GoMap.delete m k) k = GoMap.delete m k := by
  simp [GoMap.delete, List.filter_filter]

/-! ## The in-memory repositories: lookups after calls -/

theorem order_get?_foldl_step (calls : List OrderRepoCall) (id : String)
    (r : MemoryOrderRepository) (hr : GoMap.get? r.models id = none)
    (h : ∀ model, OrderRepoCall.Save model ∈ calls → model.GetID ≠ id) :
    GoMap.get? (calls.foldl MemoryOrderRepository.step r).models id = none := by
  induction calls generalizing r with
  | nil => simpa using hr
  | cons c rest ih =>
    rw [List.foldl_cons]
    apply ih
    · cases c with
      | Save model =>
        have hne : id ≠ model.GetID := fun e => h model (by simp) e.symm
        simpa [MemoryOrderRepository.step, MemoryOrderRepository.Save,
          GoMap.get?_set_ne _ _ _ _ hne] using hr
      | Delete d =>
        by_cases hd : id = d
        · subst hd
          simp [MemoryOrderRepository.step, MemoryOrderRepository.Delete, GoMap.get?_delete_self]
        · simpa [MemoryOrderRepository.step, MemoryOrderRepository.Delete,
            GoMap.get?_delete_ne _ _ _ hd] using hr
    · intro model hm
      exact h model (List.mem_cons_of_mem _ hm)

theorem user_get?_foldl_step (calls : List UserRepoCall) (id : String)
    (r : MemoryUserRepository) (hr : GoMap.get? r.models id = none)
    (h : ∀ model, UserRepoCall.Save model ∈ calls → model.GetID ≠ id) :
    GoMap.get? (calls.foldl MemoryUserRepository.step r).models id = none := by
  induction calls generalizing r with
  | nil => simpa using hr
  | cons c rest ih =>
    rw [List.foldl_cons]
    apply ih
    · cases c with
      | Save model =>
        have hne : id ≠ model.GetID := fun e => h model (by simp) e.symm
        simpa [MemoryUserRepository.step, MemoryUserRepository.Save,
          GoMap.get?_set_ne _ _ _ _ hne] using hr
      | Delete d =>
        by_cases hd : id = d
        · subst hd
          simp [MemoryUserRepository.step, MemoryUserRepository.Delete, GoMap.get?_delete_self]
        · simpa [MemoryUserRepository.step, MemoryUserRepository.Delete,
            GoMap.get?_delete_ne _ _ _ hd] using hr
    · intro model hm
      exact h model (List.mem_cons_of_mem _ hm)

/-- C1. In every state of the in-memory order repository reached from
`NewMemoryOrderRepository` by a sequence of `Save` and `Delete` calls, `FindByID` of an id
that no `Save` of the sequence was given (as its model's id) returns no model together with
`ErrReadModelNotFound`; the same holds for the in-memory user repository. -/
theorem FindByID_never_saved_not_found (ocalls : List OrderRepoCall) (ucalls : List UserRepoCall)
    (id : String)
    (ho : ∀ model, OrderRepoCall.Save model ∈ ocalls → model.GetID ≠ id)
    (hu : ∀ model, UserRepoCall.Save model ∈ ucalls → model.GetID ≠ id) :
    (MemoryOrderRepository.run ocalls).FindByID id = (none, some ErrReadModelNotFound) ∧
    (MemoryUserRepository.run ucalls).FindByID id = (none, some ErrReadModelNotFound) := by
  constructor
  · have h := order_get?_foldl_step ocalls id NewMemoryOrderRepository
      (by simp [NewMemoryOrderRepository, GoMap.get?]) ho
    simp only [MemoryOrderRepository.FindByID, MemoryOrderRepository.run, h]
  · have h := user_get?_foldl_step ucalls id NewMemoryUserRepository
      (by simp [NewMemoryUserRepository, GoMap.get?]) hu
    simp only [MemoryUserRepository.FindByID, MemoryUserRepository.run, h]

/-- A run of C1: after saving `"o1"` / `"u7"` and deleting `"zz"`, the id `"x9"` is not found. -/
theorem FindByID_never_saved_not_found_witness :
    (∀ model, OrderRepoCall.Save model ∈
        [OrderRepoCall.Save sampleOrder, OrderRepoCall.Delete "zz"] → model.GetID ≠ "x9") ∧
    (∀ model, UserRepoCall.Save model ∈
        [UserRepoCall.Save sampleUser, UserRepoCall.Delete "zz"] → model.GetID ≠ "x9") ∧
    (MemoryOrderRepository.run
        [OrderRepoCall.Save sampleOrder, OrderRepoCall.Delete "zz"]).FindByID "x9"
      = (none, some ErrReadModelNotFound) ∧
    (MemoryUserRepository.run
        [UserRepoCall.Save sampleUser, UserRepoCall.Delete "zz"]).FindByID "x9"
      = (none, some ErrReadModelNotFound) :=
  have ho : ∀ model, OrderRepoCall.Save model ∈
      [OrderRepoCall.Save sampleOrder, OrderRepoCall.Delete "zz"] → model.GetID ≠ "x9" := by
    intro model hm
    simp at hm
    subst hm
    decide
  have hu : ∀ model, UserRepoCall.Save model ∈
      [UserRepoCall.Save sampleUser, UserRepoCall.Delete "zz"] → model.GetID ≠ "x9" := by
    intro model hm
    simp at hm
    subst hm
    decide
  ⟨ho, hu, FindByID_never_saved_not_found _ _ "x9" ho hu⟩

theorem order_FindByID_Save (r : MemoryOrderRepository) (m : OrderReadModel) :
    (r.Save m).1.FindByID m.GetID = (some m, none) := by
  simp [MemoryOrderRepository.Save, MemoryOrderRepository.FindByID, GoMap.get?_set_self]

theorem user_FindByID_Save (r : MemoryUserRepository) (m : UserReadModel) :
    (r.Save m).1.FindByID m.GetID = (some m, none) := by
  simp [MemoryUserRepository.Save, MemoryUserRepository.FindByID, GoMap.get?_set_self]

/-- C2. `Save` is an upsert by id with total replacement: in every state of either in-memory
repository and for every model `m`, `Save m` returns no error and `FindByID` of `m`'s id then
returns exactly `m` with no error, whatever was stored under that id before. -/
theorem Save_then_FindByID :
    (∀ (r : MemoryOrderRepository) (m : OrderReadModel),
      (r.Save m).2 = none ∧ (r.Save m).1.FindByID m.GetID = (some m, none)) ∧
    (∀ (r : MemoryUserRepository) (m : UserReadModel),
      (r.Save m).2 = none ∧ (r.Save m).1.FindByID m.GetID = (some m, none)) := by
  constructor
  · intro r m
    exact ⟨rfl, order_FindByID_Save r m⟩
  · intro r m
    exact ⟨rfl, user_FindByID_Save r m⟩

/-- C3. `Delete` physically removes the entry: in every state of either in-memory repository
and for every id, `Delete id` returns no error (stored or not), `FindByID id` then returns no
model with `ErrReadModelNotFound`, and a second `Delete id` leaves the state of the first. -/
theorem Delete_removes_entry :
    (∀ (r : MemoryOrderRepository) (id : String),
      (r.Delete id).2 = none ∧
      (r.Delete id).1.FindByID id = (none, some ErrReadModelNotFound) ∧
      ((r.Delete id).1.Delete id).1 = (r.Delete id).1) ∧
    (∀ (r : MemoryUserRepository) (id : String),
      (r.Delete id).2 = none ∧
      (r.Delete id).1.FindByID id = (none, some ErrReadModelNotFound) ∧
      ((r.Delete id).1.Delete id).1 = (r.Delete id).1) := by
  constructor
  · intro r id
    simp [MemoryOrderRepository.Delete, MemoryOrderRepository.FindByID, GoMap.get?_delete_self,
      GoMap.delete_delete]
  · intro r id
    simp [MemoryUserRepository.Delete, MemoryUserRepository.FindByID, GoMap.get?_delete_self,
      GoMap.delete_delete]

/-! ## Maps keyed by the id of their values -/

theorem GoMap.get?_eq_none_of_not_mem_keys {β : Type} (m : GoMap β) (k : String)
    (h : k ∉ GoMap.keys m) : GoMap.get? m k = none := by
  induction m with
  | nil => simp [GoMap.get?]
  | cons kv rest ih =>
    obtain ⟨k', v'⟩ := kv
    simp only [GoMap.keys, List.map_cons, List.mem_cons, not_or] at h
    have hk : ¬ k' = k := fun e => h.1 e.symm
    simpa [GoMap.get?, hk] using ih h.2

theorem GoMap.mem_keys_set {β : Type} (m : GoMap β) (k j : String) (v : β) :
    j ∈ GoMap.keys (GoMap.set m k v) ↔ j = k ∨ j ∈ GoMap.keys m := by
  induction m with
  | nil => simp [GoMap.set, GoMap.keys]
  | cons kv rest ih =>
    obtain ⟨k', v'⟩ := kv
    by_cases h : k' = k
    · subst h
      simp [GoMap.set, GoMap.keys]
    · have ih2 : j ∈ List.map Prod.fst (GoMap.set rest k v) ↔ j = k ∨ j ∈ List.map Prod.fst rest := ih
      simp only [GoMap.set, GoMap.keys, h, if_false, List.map_cons, List.mem_cons, ih2]
      tauto

theorem GoMap.mem_set {β : Type} (m : GoMap β) (k : String) (v : β) (kv : String × β)
    (h : kv ∈ GoMap.set m k v) : kv = (k, v) ∨ kv ∈ m := by
  induction m with
  | nil => simpa [GoMap.set] using h
  | cons e rest ih =>
    obtain ⟨k', v'⟩ := e
    by_cases hk : k' = k
    · simp only [GoMap.set, hk, if_true, List.mem_cons] at h
      rcases h with h | h
      · exact Or.inl h
      · exact Or.inr (List.mem_cons_of_mem _ h)
    · simp only [GoMap.set, hk, if_false, List.mem_cons] at h
      rcases h with h | h
      · exact Or.inr (by simp [h])
      · rcases ih h with h2 | h2
        · exact Or.inl h2
        · exact Or.inr (List.mem_cons_of_mem _ h2)

theorem GoMap.nodup_keys_set {β : Type} (m : GoMap β) (k : String) (v : β)
    (h : (GoMap.keys m).Nodup) : (GoMap.keys (GoMap.set m k v)).Nodup := by
  induction m with
  | nil => simp [GoMap.set, GoMap.keys]
  | cons kv rest ih =>
    obtain ⟨k', v'⟩ := kv
    have h2 : k' ∉ GoMap.keys rest ∧ (GoMap.keys rest).Nodup := by
      simpa [GoMap.keys] using h
    by_cases hk : k' = k
    · subst hk
      simpa [GoMap.set, GoMap.keys] using h
    · have hnot : k' ∉ GoMap.keys (GoMap.set rest k v) := by
        rw [GoMap.mem_keys_set]
        exact fun e => e.elim hk h2.1
      have hcons : (k' :: GoMap.keys (GoMap.set rest k v)).Nodup :=
        List.nodup_cons.mpr ⟨hnot, ih h2.2⟩
      simpa [GoMap.set, GoMap.keys, hk] using hcons

theorem GoMap.keyedBy_nil {β : Type} (f : β → String) : GoMap.KeyedBy f ([] : GoMap β) := by
  simp [GoMap.KeyedBy, GoMap.keys]

theorem GoMap.keyedBy_set {β : Type} (f : β → String) (m : GoMap β) (v : β)
    (h : GoMap.KeyedBy f m) : GoMap.KeyedBy f (GoMap.set m (f v) v) := by
  refine ⟨GoMap.nodup_keys_set m (f v) v h.1, ?_⟩
  intro kv hkv
  rcases GoMap.mem_set m (f v) v kv hkv with e | e
  · simp [e]
  · exact h.2 kv e

theorem GoMap.keyedBy_delete {β : Type} (f : β → String) (m : GoMap β) (k : String)
    (h : GoMap.KeyedBy f m) : GoMap.KeyedBy f (GoMap.delete m k) := by
  constructor
  · have hk : GoMap.keys (GoMap.delete m k) = (GoMap.keys m).filter (fun j => decide (j ≠ k)) := by
      simp [GoMap.keys, GoMap.delete, List.filter_map, Function.comp_def]
    rw [hk]
    exact h.1.filter _
  · intro kv hkv
    exact h.2 kv (List.mem_of_mem_filter hkv)

theorem GoMap.filter_values_eq {β : Type} (f : β → String) (m : GoMap β) (id : String)
    (h : GoMap.KeyedBy f m) :
    (GoMap.values m).filter (fun x => decide (f x = id)) = (GoMap.get? m id).toList := by
  induction m with
  | nil => simp [GoMap.values, GoMap.get?]
  | cons kv rest ih =>
    obtain ⟨k', v'⟩ := kv
    have hnd : k' ∉ GoMap.keys rest ∧ (GoMap.keys rest).Nodup := by
      simpa [GoMap.keys] using h.1
    have hrest : GoMap.KeyedBy f rest :=
      ⟨hnd.2, fun kv hkv => h.2 kv (List.mem_cons_of_mem _ hkv)⟩
    have hv : f v' = k' := h.2 (k', v') (by simp)
    have ih2 := ih hrest
    by_cases hk : k' = id
    · subst hk
      have hnone : GoMap.get? rest k' = none :=
        GoMap.get?_eq_none_of_not_mem_keys rest k' hnd.1
      rw [hnone] at ih2
      simp only [GoMap.values] at ih2
      simp [GoMap.values, GoMap.get?, List.filter_cons, hv, ih2]
    · simp only [GoMap.values] at ih2
      simp [GoMap.values, GoMap.get?, List.filter_cons, hv, hk, ih2]

theorem GoMap.foldl_append_values {β : Type} (m : GoMap β) (acc : List β) :
    m.foldl (fun result kv => result ++ [kv.2]) acc = acc ++ GoMap.values m := by
  induction m generalizing acc with
  | nil => simp [GoMap.values]
  | cons kv rest ih => simp [List.foldl_cons, ih, GoMap.values]

theorem order_keyedBy_run (calls : List OrderRepoCall) :
    GoMap.KeyedBy OrderReadModel.GetID (MemoryOrderRepository.run calls).models := by
  have key : ∀ (cs : List OrderRepoCall) (r : MemoryOrderRepository),
      GoMap.KeyedBy OrderReadModel.GetID r.models →
      GoMap.KeyedBy OrderReadModel.GetID (cs.foldl MemoryOrderRepository.step r).models := by
    intro cs
    induction cs with
    | nil => intro r hr; simpa using hr
    | cons c rest ih =>
      intro r hr
      rw [List.foldl_cons]
      apply ih
      cases c with
      | Save model => exact GoMap.keyedBy_set OrderReadModel.GetID r.models model hr
      | Delete d => exact GoMap.keyedBy_delete OrderReadModel.GetID r.models d hr
  exact key calls NewMemoryOrderRepository (GoMap.keyedBy_nil _)

theorem user_keyedBy_run (calls : List UserRepoCall) :
    GoMap.KeyedBy UserReadModel.GetID (MemoryUserRepository.run calls).models := by
  have key : ∀ (cs : List UserRepoCall) (r : MemoryUserRepository),
      GoMap.KeyedBy UserReadModel.GetID r.models →
      GoMap.KeyedBy UserReadModel.GetID (cs.foldl MemoryUserRepository.step r).models := by
    intro cs
    induction cs with
    | nil => intro r hr; simpa using hr
    | cons c rest ih =>
      intro r hr
      rw [List.foldl_cons]
      apply ih
      cases c with
      | Save model => exact GoMap.keyedBy_set UserReadModel.GetID r.models model hr
      | Delete d => exact GoMap.keyedBy_delete UserReadModel.GetID r.models d hr
  exact key calls NewMemoryUserRepository (GoMap.keyedBy_nil _)

theorem order_FindAll_eq (r : MemoryOrderRepository) :
    r.FindAll = (GoMap.values r.models, none) := by
  simp [MemoryOrderRepository.FindAll, GoMap.foldl_append_values]

theorem user_FindAll_eq (r : MemoryUserRepository) :
    r.FindAll = (GoMap.values r.models, none) := by
  simp [MemoryUserRepository.FindAll, GoMap.foldl_append_values]

theorem order_FindByID_fst (r : MemoryOrderRepository) (id : String) :
    (r.FindByID id).1 = GoMap.get? r.models id := by
  unfold MemoryOrderRepository.FindByID
  cases GoMap.get? r.models id <;> rfl

theorem user_FindByID_fst (r : MemoryUserRepository) (id : String) :
    (r.FindByID id).1 = GoMap.get? r.models id := by
  unfold MemoryUserRepository.FindByID
  cases GoMap.get? r.models id <;> rfl

theorem order_FindByID_eq_some (r : MemoryOrderRepository) (id : String)
    (m : OrderReadModel) : r.FindByID id = (some m, none) ↔ GoMap.get? r.models id = some m := by
  unfold MemoryOrderRepository.FindByID
  cases GoMap.get? r.models id <;> simp

theorem user_FindByID_eq_some (r : MemoryUserRepository) (id : String)
    (m : UserReadModel) : r.FindByID id = (some m, none) ↔ GoMap.get? r.models id = some m := by
  unfold MemoryUserRepository.FindByID
  cases GoMap.get? r.models id <;> simp

theorem GoMap.map_values_eq_keys {β : Type} (f : β → String) (m : GoMap β)
    (h : GoMap.KeyedBy f m) : (GoMap.values m).map f = GoMap.keys m := by
  have h2 := h.2
  simp only [GoMap.values, GoMap.keys, List.map_map]
  apply List.map_congr_left
  intro kv hkv
  exact h2 kv hkv

theorem GoMap.mem_values_iff {β : Type} (f : β → String) (m : GoMap β) (x : β)
    (h : GoMap.KeyedBy f m) : x ∈ GoMap.values m ↔ GoMap.get? m (f x) = some x := by
  have hf := GoMap.filter_values_eq f m (f x) h
  have hx : x ∈ (GoMap.values m).filter (fun y => decide (f y = f x)) ↔ x ∈ GoMap.values m := by
    simp [List.mem_filter]
  rw [← hx, hf]
  simp [Option.mem_toList]

/-- C4. `FindAll` returns every stored model and nothing else.  In every state of the
in-memory order repository reached by `Save` and `Delete` calls it returns no error; the
entries of its list with a given id are exactly the model `FindByID` returns for that id
(one entry for a stored id, none otherwise); a model is in the list iff `FindByID` of its
id returns it; no id occurs twice; the list is a permutation of the values of the map; and
it is empty for a new repository.  The same holds for the in-memory user repository. -/
theorem FindAll_returns_stored_models (ocalls : List OrderRepoCall)
    (ucalls : List UserRepoCall) :
    ((MemoryOrderRepository.run ocalls).FindAll.2 = none ∧
      (∀ id : String,
        (MemoryOrderRepository.run ocalls).FindAll.1.filter (fun m => decide (m.GetID = id))
          = ((MemoryOrderRepository.run ocalls).FindByID id).1.toList) ∧
      (∀ m : OrderReadModel, m ∈ (MemoryOrderRepository.run ocalls).FindAll.1 ↔
        (MemoryOrderRepository.run ocalls).FindByID m.GetID = (some m, none)) ∧
      ((MemoryOrderRepository.run ocalls).FindAll.1.map OrderReadModel.GetID).Nodup ∧
      (MemoryOrderRepository.run ocalls).FindAll.1.Perm
        (GoMap.values (MemoryOrderRepository.run ocalls).models) ∧
      NewMemoryOrderRepository.FindAll = ([], none)) ∧
    ((MemoryUserRepository.run ucalls).FindAll.2 = none ∧
      (∀ id : String,
        (MemoryUserRepository.run ucalls).FindAll.1.filter (fun m => decide (m.GetID = id))
          = ((MemoryUserRepository.run ucalls).FindByID id).1.toList) ∧
      (∀ m : UserReadModel, m ∈ (MemoryUserRepository.run ucalls).FindAll.1 ↔
        (MemoryUserRepository.run ucalls).FindByID m.GetID = (some m, none)) ∧
      ((MemoryUserRepository.run ucalls).FindAll.1.map UserReadModel.GetID).Nodup ∧
      (MemoryUserRepository.run ucalls).FindAll.1.Perm
        (GoMap.values (MemoryUserRepository.run ucalls).models) ∧
      NewMemoryUserRepository.FindAll = ([], none)) := by
  have ho := order_keyedBy_run ocalls
  have hu := user_keyedBy_run ucalls
  refine ⟨⟨?_, ?_, ?_, ?_, ?_, ?_⟩, ⟨?_, ?_, ?_, ?_, ?_, ?_⟩⟩
  · rw [order_FindAll_eq]
  · intro id
    rw [order_FindAll_eq, order_FindByID_fst]
    exact GoMap.filter_values_eq OrderReadModel.GetID _ id ho
  · intro m
    rw [order_FindAll_eq, order_FindByID_eq_some]
    exact GoMap.mem_values_iff OrderReadModel.GetID _ m ho
  · rw [order_FindAll_eq]
    simp only []
    rw [GoMap.map_values_eq_keys OrderReadModel.GetID _ ho]
    exact ho.1
  · rw [order_FindAll_eq]
  · rfl
  · rw [user_FindAll_eq]
  · intro id
    rw [user_FindAll_eq, user_FindByID_fst]
    exact GoMap.filter_values_eq UserReadModel.GetID _ id hu
  · intro m
    rw [user_FindAll_eq, user_FindByID_eq_some]
    exact GoMap.mem_values_iff UserReadModel.GetID _ m hu
  · rw [user_FindAll_eq]
    simp only []
    rw [GoMap.map_values_eq_keys UserReadModel.GetID _ hu]
    exact hu.1
  · rw [user_FindAll_eq]
  · rfl

/-! ## The transition functions and the projection services -/

theorem order_ApplyEvent_eq (m : OrderReadModel) (event : DomainEvent) :
    m.ApplyEvent event = (m, none) := by
  unfold OrderReadModel.ApplyEvent OrderReadModel.applyCreated OrderReadModel.applyUpdated
    OrderReadModel.applyDeleted
  split_ifs <;> rfl

theorem user_ApplyEvent_eq (m : UserReadModel) (event : DomainEvent) :
    m.ApplyEvent event = (m, none) := by
  unfold UserReadModel.ApplyEvent UserReadModel.applyCreated UserReadModel.applyUpdated
    UserReadModel.applyDeleted
  split_ifs <;> rfl

theorem order_HandleEvent_of_load {σ : Type} (s : OrderProjectionService σ)
    (now : Time) (st st1 : σ) (event : DomainEvent) (existing : Option OrderReadModel)
    (err : Option GoError)
    (hfind : s.repo.FindByID st event.GetAggregateID = (st1, (existing, err))) :
    s.HandleEvent now st event =
      if err ≠ none ∧ err ≠ some ErrReadModelNotFound then (st1, err)
      else s.repo.Save st1
        (((existing.getD (NewOrderReadModel now event.GetAggregateID)).ApplyEvent event).1) := by
  unfold OrderProjectionService.HandleEvent
  rw [hfind]
  by_cases h : err ≠ none ∧ err ≠ some ErrReadModelNotFound
  · rw [if_pos h]
    show (if err ≠ none ∧ err ≠ some ErrReadModelNotFound then (st1, err) else _) = _
    rw [if_pos h]
  · rw [if_neg h]
    show (if err ≠ none ∧ err ≠ some ErrReadModelNotFound then (st1, err) else _) = _
    rw [if_neg h]
    cases existing <;> simp [order_ApplyEvent_eq]

theorem user_HandleEvent_of_load {σ : Type} (s : UserProjectionService σ)
    (now : Time) (st st1 : σ) (event : DomainEvent) (existing : Option UserReadModel)
    (err : Option GoError)
    (hfind : s.repo.FindByID st event.GetAggregateID = (st1, (existing, err))) :
    s.HandleEvent now st event =
      if err ≠ none ∧ err ≠ some ErrReadModelNotFound then (st1, err)
      else s.repo.Save st1
        (((existing.getD (NewUserReadModel now event.GetAggregateID)).ApplyEvent event).1) := by
  unfold UserProjectionService.HandleEvent
  rw [hfind]
  by_cases h : err ≠ none ∧ err ≠ some ErrReadModelNotFound
  · rw [if_pos h]
    show (if err ≠ none ∧ err ≠ some ErrReadModelNotFound then (st1, err) else _) = _
    rw [if_pos h]
  · rw [if_neg h]
    show (if err ≠ none ∧ err ≠ some ErrReadModelNotFound then (st1, err) else _) = _
    rw [if_neg h]
    cases existing <;> simp [user_ApplyEvent_eq]

theorem order_recording_FindByID {σ : Type} (repo : OrderRepository σ) (st st1 : σ)
    (log : List OrderReadModel) (id : String) (res : Option OrderReadModel × Option GoError)
    (hfind : repo.FindByID st id = (st1, res)) :
    repo.recording.FindByID (st, log) id = ((st1, log), res) := by
  simp [OrderRepository.recording, hfind]

theorem user_recording_FindByID {σ : Type} (repo : UserRepository σ) (st st1 : σ)
    (log : List UserReadModel) (id : String) (res : Option UserReadModel × Option GoError)
    (hfind : repo.FindByID st id = (st1, res)) :
    repo.recording.FindByID (st, log) id = ((st1, log), res) := by
  simp [UserRepository.recording, hfind]

theorem memoryOrderService_HandleEvent (now : Time) (r : MemoryOrderRepository)
    (event : DomainEvent) :
    memoryOrderService.HandleEvent now r event =
      r.Save ((((r.FindByID event.GetAggregateID).1.getD
        (NewOrderReadModel now event.GetAggregateID)).ApplyEvent event).1) := by
  have hfind : memoryOrderService.repo.FindByID r event.GetAggregateID
      = (r, ((r.FindByID event.GetAggregateID).1, (r.FindByID event.GetAggregateID).2)) := rfl
  rw [order_HandleEvent_of_load memoryOrderService now r r event _ _ hfind]
  have herr : ¬ ((r.FindByID event.GetAggregateID).2 ≠ none ∧
      (r.FindByID event.GetAggregateID).2 ≠ some ErrReadModelNotFound) := by
    unfold MemoryOrderRepository.FindByID
    cases GoMap.get? r.models event.GetAggregateID <;> simp
  rw [if_neg herr]
  rfl

theorem memoryUserService_HandleEvent (now : Time) (r : MemoryUserRepository)
    (event : DomainEvent) :
    memoryUserService.HandleEvent now r event =
      r.Save ((((r.FindByID event.GetAggregateID).1.getD
        (NewUserReadModel now event.GetAggregateID)).ApplyEvent event).1) := by
  have hfind : memoryUserService.repo.FindByID r event.GetAggregateID
      = (r, ((r.FindByID event.GetAggregateID).1, (r.FindByID event.GetAggregateID).2)) := rfl
  rw [user_HandleEvent_of_load memoryUserService now r r event _ _ hfind]
  have herr : ¬ ((r.FindByID event.GetAggregateID).2 ≠ none ∧
      (r.FindByID event.GetAggregateID).2 ≠ some ErrReadModelNotFound) := by
    unfold MemoryUserRepository.FindByID
    cases GoMap.get? r.models event.GetAggregateID <;> simp
  rw [if_neg herr]
  rfl

/-- C5. Lazy creation.  For every order repository whose `FindByID` of the event's aggregate
id returns no model with `ErrReadModelNotFound`, and every event, `HandleEvent` builds the
fresh model `NewOrderReadModel` of that id (its id is the aggregate id, its type `"order"`),
applies the event to it and returns what `Save` of the result returns; a recording repository
sees exactly that one model passed to `Save`.  With the in-memory repository `HandleEvent`
then returns no error and `GetOrder` of the aggregate id returns a model with that id. -/
theorem HandleEvent_lazy_creation {σ : Type} (repo : OrderRepository σ) (now : Time)
    (st st1 : σ) (r : MemoryOrderRepository) (event : DomainEvent)
    (hfind : repo.FindByID st event.GetAggregateID = (st1, (none, some ErrReadModelNotFound)))
    (hmem : r.FindByID event.GetAggregateID = (none, some ErrReadModelNotFound)) :
    (NewOrderReadModel now event.GetAggregateID).GetID = event.GetAggregateID ∧
    (NewOrderReadModel now event.GetAggregateID).ReadModel.type = "order" ∧
    (NewOrderProjectionService repo).HandleEvent now st event =
      repo.Save st1 (((NewOrderReadModel now event.GetAggregateID).ApplyEvent event).1) ∧
    ((NewOrderProjectionService repo.recording).HandleEvent now (st, []) event).1.2 =
      [((NewOrderReadModel now event.GetAggregateID).ApplyEvent event).1] ∧
    (memoryOrderService.HandleEvent now r event).2 = none ∧
    ∃ m : OrderReadModel,
      memoryOrderService.GetOrder (memoryOrderService.HandleEvent now r event).1
          event.GetAggregateID
        = ((memoryOrderService.HandleEvent now r event).1, (some m, none)) ∧
      m.GetID = event.GetAggregateID ∧ m.ReadModel.type = "order" := by
  refine ⟨rfl, rfl, ?_, ?_, ?_, ?_⟩
  · rw [order_HandleEvent_of_load (NewOrderProjectionService repo) now st st1
      event none (some ErrReadModelNotFound) hfind]
    simp [NewOrderProjectionService]
  · have hrec := order_recording_FindByID repo st st1 [] event.GetAggregateID _ hfind
    rw [order_HandleEvent_of_load (NewOrderProjectionService repo.recording) now
      (st, []) (st1, []) event none (some ErrReadModelNotFound) hrec]
    simp [NewOrderProjectionService, OrderRepository.recording]
  · rw [memoryOrderService_HandleEvent]
    rfl
  · refine ⟨NewOrderReadModel now event.GetAggregateID, ?_, rfl, rfl⟩
    rw [memoryOrderService_HandleEvent, hmem]
    simp only [Option.getD_none, order_ApplyEvent_eq]
    have h2 := order_FindByID_Save r (NewOrderReadModel now event.GetAggregateID)
    have hid : (NewOrderReadModel now event.GetAggregateID).GetID = event.GetAggregateID := rfl
    rw [hid] at h2
    show (_, MemoryOrderRepository.FindByID _ _) = _
    rw [h2]

/-- A run of C5: an `OrderUpdated` event for `"o1"` arriving at a new in-memory repository. -/
theorem HandleEvent_lazy_creation_witness :
    MemoryOrderRepository.asOrderRepository.FindByID NewMemoryOrderRepository
        sampleUpdated.GetAggregateID
      = (NewMemoryOrderRepository, (none, some ErrReadModelNotFound)) ∧
    NewMemoryOrderRepository.FindByID sampleUpdated.GetAggregateID
      = (none, some ErrReadModelNotFound) ∧
    ((NewOrderProjectionService MemoryOrderRepository.asOrderRepository.recording).HandleEvent 7
        (NewMemoryOrderRepository, []) sampleUpdated).1.2
      = [((NewOrderReadModel 7 sampleUpdated.GetAggregateID).ApplyEvent sampleUpdated).1] ∧
    (memoryOrderService.HandleEvent 7 NewMemoryOrderRepository sampleUpdated).2 = none :=
  have h := HandleEvent_lazy_creation MemoryOrderRepository.asOrderRepository 7
    NewMemoryOrderRepository NewMemoryOrderRepository NewMemoryOrderRepository sampleUpdated
    rfl rfl
  ⟨rfl, rfl, h.2.2.2.1, h.2.2.2.2.1⟩

/-- C6. Load errors other than `ErrReadModelNotFound` are propagated unchanged, and a save
result is surfaced unchanged, in both projection services; the four parts hold separately,
each for every repository.  When `FindByID` of the event's aggregate id returns an error `e`
other than `ErrReadModelNotFound`, `HandleEvent` returns exactly `e`, a recording repository
sees no `Save` call (its log stays as it was), and the state is the one the load left, hence
the state before the call when loading changes nothing.  When `FindByID` returns no error or
`ErrReadModelNotFound`, applying the event to the loaded (or fresh) model returns no error
and `HandleEvent` returns exactly what `Save` of the applied model returns. -/
theorem HandleEvent_load_error_and_save_result :
    (∀ (σ : Type) (repo : OrderRepository σ) (now : Time) (event : DomainEvent) (e : GoError)
        (st st1 : σ) (found : Option OrderReadModel) (log : List OrderReadModel),
      e ≠ ErrReadModelNotFound →
      repo.FindByID st event.GetAggregateID = (st1, (found, some e)) →
      (NewOrderProjectionService repo).HandleEvent now st event = (st1, some e) ∧
      (st1 = st → ((NewOrderProjectionService repo).HandleEvent now st event).1 = st) ∧
      (NewOrderProjectionService repo.recording).HandleEvent now (st, log) event
        = ((st1, log), some e)) ∧
    (∀ (τ : Type) (repo : UserRepository τ) (now : Time) (event : DomainEvent) (e : GoError)
        (ut ut1 : τ) (found : Option UserReadModel) (log : List UserReadModel),
      e ≠ ErrReadModelNotFound →
      repo.FindByID ut event.GetAggregateID = (ut1, (found, some e)) →
      (NewUserProjectionService repo).HandleEvent now ut event = (ut1, some e) ∧
      (ut1 = ut → ((NewUserProjectionService repo).HandleEvent now ut event).1 = ut) ∧
      (NewUserProjectionService repo.recording).HandleEvent now (ut, log) event
        = ((ut1, log), some e)) ∧
    (∀ (σ : Type) (repo : OrderRepository σ) (now : Time) (event : DomainEvent)
        (st st1 : σ) (found : Option OrderReadModel) (err : Option GoError),
      repo.FindByID st event.GetAggregateID = (st1, (found, err)) →
      (err = none ∨ err = some ErrReadModelNotFound) →
      ((found.getD (NewOrderReadModel now event.GetAggregateID)).ApplyEvent event).2 = none ∧
      (NewOrderProjectionService repo).HandleEvent now st event =
        repo.Save st1
          (((found.getD (NewOrderReadModel now event.GetAggregateID)).ApplyEvent event).1)) ∧
    (∀ (τ : Type) (repo : UserRepository τ) (now : Time) (event : DomainEvent)
        (ut ut1 : τ) (found : Option UserReadModel) (err : Option GoError),
      repo.FindByID ut event.GetAggregateID = (ut1, (found, err)) →
      (err = none ∨ err = some ErrReadModelNotFound) →
      ((found.getD (NewUserReadModel now event.GetAggregateID)).ApplyEvent event).2 = none ∧
      (NewUserProjectionService repo).HandleEvent now ut event =
        repo.Save ut1
          (((found.getD (NewUserReadModel now event.GetAggregateID)).ApplyEvent event).1)) := by
  have hcond : ∀ e : GoError, e ≠ ErrReadModelNotFound →
      (some e ≠ none ∧ some e ≠ some ErrReadModelNotFound) := by
    intro e he
    refine ⟨by simp, ?_⟩
    intro h
    exact he (Option.some.inj h)
  have hok : ∀ err : Option GoError, (err = none ∨ err = some ErrReadModelNotFound) →
      ¬ (err ≠ none ∧ err ≠ some ErrReadModelNotFound) := by
    intro err herr
    rcases herr with h | h <;> simp [h]
  refine ⟨?_, ?_, ?_, ?_⟩
  · intro σ repo now event e st st1 found log he hfail
    have ho : (NewOrderProjectionService repo).HandleEvent now st event = (st1, some e) := by
      rw [order_HandleEvent_of_load (NewOrderProjectionService repo) now st st1
        event found (some e) hfail, if_pos (hcond e he)]
    refine ⟨ho, ?_, ?_⟩
    · intro hst
      rw [ho, hst]
    · have hrec := order_recording_FindByID repo st st1 log event.GetAggregateID _ hfail
      rw [order_HandleEvent_of_load (NewOrderProjectionService repo.recording)
        now (st, log) (st1, log) event found (some e) hrec, if_pos (hcond e he)]
  · intro τ repo now event e ut ut1 found log he hfail
    have hu : (NewUserProjectionService repo).HandleEvent now ut event = (ut1, some e) := by
      rw [user_HandleEvent_of_load (NewUserProjectionService repo) now ut ut1
        event found (some e) hfail, if_pos (hcond e he)]
    refine ⟨hu, ?_, ?_⟩
    · intro hut
      rw [hu, hut]
    · have hrec := user_recording_FindByID repo ut ut1 log event.GetAggregateID _ hfail
      rw [user_HandleEvent_of_load (NewUserProjectionService repo.recording)
        now (ut, log) (ut1, log) event found (some e) hrec, if_pos (hcond e he)]
  · intro σ repo now event st st1 found err hload herr
    refine ⟨by rw [order_ApplyEvent_eq], ?_⟩
    rw [order_HandleEvent_of_load (NewOrderProjectionService repo) now st st1
      event found err hload, if_neg (hok err herr)]
    rfl
  · intro τ repo now event ut ut1 found err hload herr
    refine ⟨by rw [user_ApplyEvent_eq], ?_⟩
    rw [user_HandleEvent_of_load (NewUserProjectionService repo) now ut ut1
      event found err hload, if_neg (hok err herr)]
    rfl

/-- Runs of C6.  A store that is down (state `0` of the test doubles): handling an event
fails with the storage error, nothing is saved and the state stays `0`, in both services.
A store that is up (state `1`): the loaded model is saved and the result of `Save` (no
error, state `2`) comes back.  The in-memory repositories, whose load never fails with
another error: handling an event for an unseen id returns what `Save` of the fresh model
returns. -/
theorem HandleEvent_load_error_and_save_result_witness :
    GoError.other "storage failure" ≠ ErrReadModelNotFound ∧
    flakyOrderRepository.FindByID 0 sampleDeleted.GetAggregateID
      = (0, (none, some (GoError.other "storage failure"))) ∧
    flakyUserRepository.FindByID 0 sampleDeleted.GetAggregateID
      = (0, (none, some (GoError.other "storage failure"))) ∧
    flakyOrderRepository.FindByID 1 sampleDeleted.GetAggregateID
      = (1, (some sampleOrder, none)) ∧
    MemoryOrderRepository.asOrderRepository.FindByID NewMemoryOrderRepository
        sampleDeleted.GetAggregateID
      = (NewMemoryOrderRepository, (none, some ErrReadModelNotFound)) ∧
    MemoryUserRepository.asUserRepository.FindByID NewMemoryUserRepository
        sampleDeleted.GetAggregateID
      = (NewMemoryUserRepository, (none, some ErrReadModelNotFound)) ∧
    (NewOrderProjectionService flakyOrderRepository).HandleEvent 7 0 sampleDeleted
      = (0, some (GoError.other "storage failure")) ∧
    ((NewOrderProjectionService flakyOrderRepository).HandleEvent 7 0 sampleDeleted).1 = 0 ∧
    (NewOrderProjectionService flakyOrderRepository.recording).HandleEvent 7 (0, [])
        sampleDeleted
      = ((0, []), some (GoError.other "storage failure")) ∧
    (NewUserProjectionService flakyUserRepository).HandleEvent 7 0 sampleDeleted
      = (0, some (GoError.other "storage failure")) ∧
    (NewUserProjectionService flakyUserRepository.recording).HandleEvent 7 (0, [])
        sampleDeleted
      = ((0, []), some (GoError.other "storage failure")) ∧
    (NewOrderProjectionService flakyOrderRepository).HandleEvent 7 1 sampleDeleted
      = (2, none) ∧
    (NewOrderProjectionService MemoryOrderRepository.asOrderRepository).HandleEvent 7
        NewMemoryOrderRepository sampleDeleted
      = NewMemoryOrderRepository.Save (NewOrderReadModel 7 "o1") ∧
    (NewUserProjectionService MemoryUserRepository.asUserRepository).HandleEvent 7
        NewMemoryUserRepository sampleDeleted
      = NewMemoryUserRepository.Save (NewUserReadModel 7 "o1") :=
  have hne : GoError.other "storage failure" ≠ ErrReadModelNotFound := by decide
  have hofail := HandleEvent_load_error_and_save_result.1 Nat flakyOrderRepository 7
    sampleDeleted (GoError.other "storage failure") 0 0 none [] hne rfl
  have hufail := HandleEvent_load_error_and_save_result.2.1 Nat flakyUserRepository 7
    sampleDeleted (GoError.other "storage failure") 0 0 none [] hne rfl
  have hoload := HandleEvent_load_error_and_save_result.2.2.1 Nat flakyOrderRepository 7
    sampleDeleted 1 1 (some sampleOrder) none rfl (Or.inl rfl)
  have homem := HandleEvent_load_error_and_save_result.2.2.1 MemoryOrderRepository
    MemoryOrderRepository.asOrderRepository 7 sampleDeleted NewMemoryOrderRepository
    NewMemoryOrderRepository none (some ErrReadModelNotFound) rfl (Or.inr rfl)
  have humem := HandleEvent_load_error_and_save_result.2.2.2 MemoryUserRepository
    MemoryUserRepository.asUserRepository 7 sampleDeleted NewMemoryUserRepository
    NewMemoryUserRepository none (some ErrReadModelNotFound) rfl (Or.inr rfl)
  ⟨hne, rfl, rfl, rfl, rfl, rfl, hofail.1, hofail.2.1 rfl, hofail.2.2, hufail.1, hufail.2.2,
    hoload.2, homem.2, humem.2⟩

theorem GoMap.mem_of_get?_eq_some {β : Type} (m : GoMap β) (k : String) (v : β)
    (h : GoMap.get? m k = some v) : (k, v) ∈ m := by
  induction m with
  | nil => simp [GoMap.get?] at h
  | cons kv rest ih =>
    obtain ⟨k', v'⟩ := kv
    by_cases hk : k' = k
    · subst hk
      simp only [GoMap.get?, if_true, Option.some.injEq] at h
      simp [h]
    · simp only [GoMap.get?, hk, if_false] at h
      exact List.mem_cons_of_mem _ (ih h)

theorem order_stored_id (calls : List OrderRepoCall) (a : String) (m : OrderReadModel)
    (h : (MemoryOrderRepository.run calls).FindByID a = (some m, none)) : m.GetID = a := by
  rw [order_FindByID_eq_some] at h
  exact (order_keyedBy_run calls).2 (a, m) (GoMap.mem_of_get?_eq_some _ a m h)

/-- C7 fails on the code: applying `OrderCreated` to a model at version 1 returns no error
and leaves the version at 1, not 2; applied to a fresh model it leaves the version at 0. -/
theorem ApplyEvent_version_not_incremented :
    sampleCreated.GetEventType = "OrderCreated" ∧
    (sampleOrder.ApplyEvent sampleCreated).2 = none ∧
    (sampleOrder.ApplyEvent sampleCreated).1.ReadModel.version
      ≠ sampleOrder.ReadModel.version + 1 ∧
    ((NewOrderReadModel 7 "o1").ApplyEvent sampleCreated).1.ReadModel.version ≠ 1 := by
  refine ⟨rfl, ?_, ?_, ?_⟩
  · rw [order_ApplyEvent_eq]
  · rw [order_ApplyEvent_eq]
    decide
  · rw [order_ApplyEvent_eq]
    decide

/-- C7, amended. For every `OrderReadModel` and every event whose type is `OrderCreated`,
`OrderUpdated` or `OrderDeleted`, `ApplyEvent` returns no error and the model's version
afterwards equals its version before: the transitions do not touch the version. -/
theorem ApplyEvent_version_unchanged (m : OrderReadModel) (event : DomainEvent)
    (hty : event.GetEventType = "OrderCreated" ∨ event.GetEventType = "OrderUpdated" ∨
      event.GetEventType = "OrderDeleted") :
    (m.ApplyEvent event).2 = none ∧
    (m.ApplyEvent event).1.ReadModel.version = m.ReadModel.version := by
  rcases hty with h | h | h <;>
    simp [OrderReadModel.ApplyEvent, OrderReadModel.applyCreated, OrderReadModel.applyUpdated,
      OrderReadModel.applyDeleted, h]

/-- A run of the amended C7: `OrderDeleted` applied to the sample order at version 1. -/
theorem ApplyEvent_version_unchanged_witness :
    (sampleDeleted.GetEventType = "OrderCreated" ∨ sampleDeleted.GetEventType = "OrderUpdated" ∨
      sampleDeleted.GetEventType = "OrderDeleted") ∧
    (sampleOrder.ApplyEvent sampleDeleted).2 = none ∧
    (sampleOrder.ApplyEvent sampleDeleted).1.ReadModel.version = 1 :=
  ⟨Or.inr (Or.inr rfl),
    ApplyEvent_version_unchanged sampleOrder sampleDeleted (Or.inr (Or.inr rfl))⟩

/-- C8 at its failing input: the repository holds the sample order `"o1"` (not deleted);
after `HandleEvent` of an `OrderDeleted` event for `"o1"`, `FindByID "o1"` returns the model
with its `deleted` flag still `false`. -/
theorem HandleEvent_OrderDeleted_flag_not_set :
    (MemoryOrderRepository.run [OrderRepoCall.Save sampleOrder]).FindByID "o1"
      = (some sampleOrder, none) ∧
    sampleOrder.ReadModel.deleted = false ∧
    (memoryOrderService.HandleEvent 7
        (MemoryOrderRepository.run [OrderRepoCall.Save sampleOrder]) sampleDeleted).2 = none ∧
    (memoryOrderService.HandleEvent 7
        (MemoryOrderRepository.run [OrderRepoCall.Save sampleOrder]) sampleDeleted).1.FindByID "o1"
      = (some sampleOrder, none) := by
  have hfind : (MemoryOrderRepository.run [OrderRepoCall.Save sampleOrder]).FindByID "o1"
      = (some sampleOrder, none) :=
    order_FindByID_Save NewMemoryOrderRepository sampleOrder
  have hev : sampleDeleted.GetAggregateID = "o1" := rfl
  refine ⟨hfind, rfl, ?_, ?_⟩
  · rw [memoryOrderService_HandleEvent]
    rfl
  · rw [memoryOrderService_HandleEvent, hev, hfind]
    simp only [Option.getD_some, order_ApplyEvent_eq]
    exact order_FindByID_Save _ sampleOrder

/-- C9. An apply never removes or erases a model.  In every state of the in-memory order
repository reached by `Save` and `Delete` calls in which id `a` is stored, `HandleEvent` of an
`OrderDeleted` event for `a` returns no error, and `FindByID a` then still succeeds with a
model whose business fields `Orderid`, `Userid`, `Totalamount`, `Shippingaddress`, `Status`
and `Createdat` are those stored before. -/
theorem HandleEvent_OrderDeleted_keeps_fields (calls : List OrderRepoCall) (now : Time)
    (a : String) (m : OrderReadModel) (event : DomainEvent)
    (hstored : (MemoryOrderRepository.run calls).FindByID a = (some m, none))
    (hty : event.GetEventType = "OrderDeleted")
    (hid : event.GetAggregateID = a) :
    (memoryOrderService.HandleEvent now (MemoryOrderRepository.run calls) event).2 = none ∧
    ∃ m2 : OrderReadModel,
      (memoryOrderService.HandleEvent now (MemoryOrderRepository.run calls) event).1.FindByID a
        = (some m2, none) ∧
      m2.Orderid = m.Orderid ∧ m2.Userid = m.Userid ∧ m2.Totalamount = m.Totalamount ∧
      m2.Shippingaddress = m.Shippingaddress ∧ m2.Status = m.Status ∧
      m2.Createdat = m.Createdat := by
  have hma : m.GetID = a := order_stored_id calls a m hstored
  have happly : m.ApplyEvent event = m.applyDeleted event := by
    simp [OrderReadModel.ApplyEvent, hty]
  constructor
  · rw [memoryOrderService_HandleEvent]
    rfl
  · refine ⟨m, ?_, rfl, rfl, rfl, rfl, rfl, rfl⟩
    rw [memoryOrderService_HandleEvent, hid, hstored]
    simp only [Option.getD_some, happly, OrderReadModel.applyDeleted]
    have h2 := order_FindByID_Save (MemoryOrderRepository.run calls) m
    rw [hma] at h2
    exact h2

/-- A run of C9: the sample order is stored, then an `OrderDeleted` event for it is handled. -/
theorem HandleEvent_OrderDeleted_keeps_fields_witness :
    (MemoryOrderRepository.run [OrderRepoCall.Save sampleOrder]).FindByID "o1"
      = (some sampleOrder, none) ∧
    sampleDeleted.GetEventType = "OrderDeleted" ∧
    sampleDeleted.GetAggregateID = "o1" ∧
    (memoryOrderService.HandleEvent 7
        (MemoryOrderRepository.run [OrderRepoCall.Save sampleOrder]) sampleDeleted).2 = none ∧
    ∃ m2 : OrderReadModel,
      (memoryOrderService.HandleEvent 7
          (MemoryOrderRepository.run [OrderRepoCall.Save sampleOrder]) sampleDeleted).1.FindByID
          "o1" = (some m2, none) ∧
      m2.Orderid = sampleOrder.Orderid ∧ m2.Userid = sampleOrder.Userid ∧
      m2.Totalamount = sampleOrder.Totalamount ∧
      m2.Shippingaddress = sampleOrder.Shippingaddress ∧ m2.Status = sampleOrder.Status ∧
      m2.Createdat = sampleOrder.Createdat :=
  have hfind : (MemoryOrderRepository.run [OrderRepoCall.Save sampleOrder]).FindByID "o1"
      = (some sampleOrder, none) :=
    order_FindByID_Save NewMemoryOrderRepository sampleOrder
  ⟨hfind, rfl, rfl,
    HandleEvent_OrderDeleted_keeps_fields [OrderRepoCall.Save sampleOrder] 7 "o1" sampleOrder
      sampleDeleted hfind rfl rfl⟩

/-- C10 fails on the code: from an empty in-memory repository, after `HandleEvent` of the
`OrderCreated` event for `"o1"` with `total_amount: 100, status: "pending"`, `GetOrder "o1"`
returns the freshly constructed model: `Totalamount` is `0`, `Status` is empty and the
version is `0`, not `100`, `"pending"` and `1`. -/
theorem HandleEvent_created_scenario_fails :
    (memoryOrderService.GetOrder
        (memoryOrderService.HandleEvent 7 NewMemoryOrderRepository sampleCreated).1 "o1").2
      = (some (NewOrderReadModel 7 "o1"), none) ∧
    (NewOrderReadModel 7 "o1").Totalamount ≠ 100 ∧
    (NewOrderReadModel 7 "o1").Status ≠ "pending" ∧
    (NewOrderReadModel 7 "o1").ReadModel.version ≠ 1 := by
  refine ⟨?_, ?_, ?_, ?_⟩
  · rw [memoryOrderService_HandleEvent]
    have hfind : NewMemoryOrderRepository.FindByID sampleCreated.GetAggregateID
        = (none, some ErrReadModelNotFound) := rfl
    rw [hfind]
    simp only [Option.getD_none, order_ApplyEvent_eq]
    exact order_FindByID_Save NewMemoryOrderRepository (NewOrderReadModel 7 "o1")
  · simp [NewOrderReadModel]
  · simp [NewOrderReadModel]
  · simp [NewOrderReadModel, NewReadModel]

/-- C10, amended. From an empty in-memory order repository, `HandleEvent` of the
`OrderCreated` event for `"o1"` with `total_amount: 100, status: "pending"` returns no error,
and `GetOrder "o1"` then returns, with no error, a model with id `"o1"`, type `"order"`,
version `0` and `deleted = false`. -/
theorem HandleEvent_created_scenario (now : Time) :
    (memoryOrderService.HandleEvent now NewMemoryOrderRepository sampleCreated).2 = none ∧
    ∃ m : OrderReadModel,
      (memoryOrderService.GetOrder
          (memoryOrderService.HandleEvent now NewMemoryOrderRepository sampleCreated).1 "o1").2
        = (some m, none) ∧
      m.GetID = "o1" ∧ m.ReadModel.type = "order" ∧ m.ReadModel.version = 0 ∧
      m.ReadModel.deleted = false := by
  constructor
  · rw [memoryOrderService_HandleEvent]
    rfl
  · refine ⟨NewOrderReadModel now "o1", ?_, rfl, rfl, rfl, rfl⟩
    rw [memoryOrderService_HandleEvent]
    have hfind : NewMemoryOrderRepository.FindByID sampleCreated.GetAggregateID
        = (none, some ErrReadModelNotFound) := rfl
    rw [hfind]
    simp only [Option.getD_none, order_ApplyEvent_eq]
    exact order_FindByID_Save NewMemoryOrderRepository (NewOrderReadModel now "o1")

/-! ## Handling events over the in-memory repositories -/

theorem GoMap.set_eq_self {β : Type} (m : GoMap β) (k : String) (v : β)
    (h : GoMap.get? m k = some v) : GoMap.set m k v = m := by
  induction m with
  | nil => simp [GoMap.get?] at h
  | cons kv rest ih =>
    obtain ⟨k', v'⟩ := kv
    by_cases hk : k' = k
    · subst hk
      simp only [GoMap.get?, if_true, Option.some.injEq] at h
      simp [GoMap.set, h]
    · simp only [GoMap.get?, hk, if_false] at h
      simp [GoMap.set, hk, ih h]

theorem GoMap.keyedBy_id_of_get? {β : Type} (f : β → String) (m : GoMap β) (k : String) (v : β)
    (hk : GoMap.KeyedBy f m) (h : GoMap.get? m k = some v) : f v = k :=
  hk.2 (k, v) (GoMap.mem_of_get?_eq_some m k v h)

theorem GoMap.keyedBy_getD_id {β : Type} (f : β → String) (m : GoMap β) (k : String) (fresh : β)
    (hk : GoMap.KeyedBy f m) (hf : f fresh = k) : f ((GoMap.get? m k).getD fresh) = k := by
  cases h : GoMap.get? m k with
  | none => simpa using hf
  | some v => simpa using GoMap.keyedBy_id_of_get? f m k v hk h

theorem order_FindByID_Save_ne (r : MemoryOrderRepository) (m : OrderReadModel) (j : String)
    (hj : j ≠ m.GetID) : (r.Save m).1.FindByID j = r.FindByID j := by
  simp [MemoryOrderRepository.Save, MemoryOrderRepository.FindByID,
    GoMap.get?_set_ne _ _ _ _ hj]

theorem user_FindByID_Save_ne (r : MemoryUserRepository) (m : UserReadModel) (j : String)
    (hj : j ≠ m.GetID) : (r.Save m).1.FindByID j = r.FindByID j := by
  simp [MemoryUserRepository.Save, MemoryUserRepository.FindByID,
    GoMap.get?_set_ne _ _ _ _ hj]

theorem order_FindByID_Delete_ne (r : MemoryOrderRepository) (d j : String) (hj : j ≠ d) :
    (r.Delete d).1.FindByID j = r.FindByID j := by
  simp [MemoryOrderRepository.Delete, MemoryOrderRepository.FindByID,
    GoMap.get?_delete_ne _ _ _ hj]

theorem order_FindByID_Save_loaded (r : MemoryOrderRepository) (a : String)
    (fresh : OrderReadModel) (hf : fresh.GetID = a) :
    (r.Save ((r.FindByID a).1.getD fresh)).1.FindByID a
      = (some ((r.FindByID a).1.getD fresh), none) := by
  rw [order_FindByID_fst]
  cases h : GoMap.get? r.models a with
  | none =>
    simp only [Option.getD_none]
    have h2 := order_FindByID_Save r fresh
    rw [hf] at h2
    exact h2
  | some m =>
    simp only [Option.getD_some]
    by_cases hm : m.GetID = a
    · have h2 := order_FindByID_Save r m
      rw [hm] at h2
      exact h2
    · rw [order_FindByID_Save_ne r m a (fun e => hm e.symm)]
      exact (order_FindByID_eq_some r a m).mpr h

theorem user_FindByID_Save_loaded (r : MemoryUserRepository) (a : String)
    (fresh : UserReadModel) (hf : fresh.GetID = a) :
    (r.Save ((r.FindByID a).1.getD fresh)).1.FindByID a
      = (some ((r.FindByID a).1.getD fresh), none) := by
  rw [user_FindByID_fst]
  cases h : GoMap.get? r.models a with
  | none =>
    simp only [Option.getD_none]
    have h2 := user_FindByID_Save r fresh
    rw [hf] at h2
    exact h2
  | some m =>
    simp only [Option.getD_some]
    by_cases hm : m.GetID = a
    · have h2 := user_FindByID_Save r m
      rw [hm] at h2
      exact h2
    · rw [user_FindByID_Save_ne r m a (fun e => hm e.symm)]
      exact (user_FindByID_eq_some r a m).mpr h

theorem order_HandleEvent_eq_Save (now : Time) (r : MemoryOrderRepository)
    (event : DomainEvent) :
    memoryOrderService.HandleEvent now r event =
      r.Save ((r.FindByID event.GetAggregateID).1.getD
        (NewOrderReadModel now event.GetAggregateID)) := by
  rw [memoryOrderService_HandleEvent, order_ApplyEvent_eq]

theorem user_HandleEvent_eq_Save (now : Time) (r : MemoryUserRepository)
    (event : DomainEvent) :
    memoryUserService.HandleEvent now r event =
      r.Save ((r.FindByID event.GetAggregateID).1.getD
        (NewUserReadModel now event.GetAggregateID)) := by
  rw [memoryUserService_HandleEvent, user_ApplyEvent_eq]

/-- C11. Idempotent duplicate delivery.  In every state of the in-memory order repository and
for every `OrderCreated` event, handling the event a second time right after the first returns
no error either time and leaves, under the event's aggregate id, the very model stored after
the first handling: id, type, version, deleted flag and every business field are equal. -/
theorem HandleEvent_duplicate_created (r : MemoryOrderRepository) (now1 now2 : Time)
    (event : DomainEvent) (hty : event.GetEventType = "OrderCreated") :
    (memoryOrderService.HandleEvent now1 r event).2 = none ∧
    (memoryOrderService.HandleEvent now2
      (memoryOrderService.HandleEvent now1 r event).1 event).2 = none ∧
    ∃ m : OrderReadModel,
      (memoryOrderService.HandleEvent now1 r event).1.FindByID event.GetAggregateID
        = (some m, none) ∧
      (memoryOrderService.HandleEvent now2
        (memoryOrderService.HandleEvent now1 r event).1 event).1.FindByID event.GetAggregateID
        = (some m, none) := by
  have happ : ∀ x : OrderReadModel, (x.ApplyEvent event).1 = x := by
    intro x
    simp [OrderReadModel.ApplyEvent, hty, OrderReadModel.applyCreated]
  have hstep : ∀ (now : Time) (st : MemoryOrderRepository),
      memoryOrderService.HandleEvent now st event =
        st.Save ((st.FindByID event.GetAggregateID).1.getD
          (NewOrderReadModel now event.GetAggregateID)) := by
    intro now st
    rw [memoryOrderService_HandleEvent, happ]
  have h1 := order_FindByID_Save_loaded r event.GetAggregateID
    (NewOrderReadModel now1 event.GetAggregateID) rfl
  rw [← hstep now1 r] at h1
  have h2 := order_FindByID_Save_loaded (memoryOrderService.HandleEvent now1 r event).1
    event.GetAggregateID (NewOrderReadModel now2 event.GetAggregateID) rfl
  rw [← hstep now2] at h2
  refine ⟨?_, ?_, _, h1, ?_⟩
  · rw [hstep]
    rfl
  · rw [hstep]
    rfl
  · rw [h2, h1]
    rfl

/-- A run of C11: the `OrderCreated` event for `"o1"` delivered twice to a new repository. -/
theorem HandleEvent_duplicate_created_witness :
    sampleCreated.GetEventType = "OrderCreated" ∧
    ∃ m : OrderReadModel,
      (memoryOrderService.HandleEvent 7 NewMemoryOrderRepository sampleCreated).1.FindByID
          sampleCreated.GetAggregateID = (some m, none) ∧
      (memoryOrderService.HandleEvent 9
        (memoryOrderService.HandleEvent 7 NewMemoryOrderRepository sampleCreated).1
          sampleCreated).1.FindByID sampleCreated.GetAggregateID = (some m, none) :=
  ⟨rfl, (HandleEvent_duplicate_created NewMemoryOrderRepository 7 9 sampleCreated rfl).2.2⟩

/-- C12. Unrecognized event types are a no-op of the transition function.  For every
`OrderReadModel` and every event whose type is none of `OrderCreated`, `OrderUpdated`,
`OrderDeleted`, and for every `UserReadModel` and every event whose type is none of
`UserCreated`, `UserUpdated`, `UserDeleted`, `ApplyEvent` returns no error and the model it
leaves is the model it was given, every field unchanged. -/
theorem ApplyEvent_unrecognized_noop (om : OrderReadModel) (um : UserReadModel)
    (oe ue : DomainEvent)
    (ho1 : oe.GetEventType ≠ "OrderCreated") (ho2 : oe.GetEventType ≠ "OrderUpdated")
    (ho3 : oe.GetEventType ≠ "OrderDeleted")
    (hu1 : ue.GetEventType ≠ "UserCreated") (hu2 : ue.GetEventType ≠ "UserUpdated")
    (hu3 : ue.GetEventType ≠ "UserDeleted") :
    om.ApplyEvent oe = (om, none) ∧ um.ApplyEvent ue = (um, none) := by
  constructor
  · simp [OrderReadModel.ApplyEvent, ho1, ho2, ho3]
  · simp [UserReadModel.ApplyEvent, hu1, hu2, hu3]

/-- A run of C12: a `PaymentReceived` event applied to the sample order and the sample user. -/
theorem ApplyEvent_unrecognized_noop_witness :
    samplePayment.GetEventType ≠ "OrderCreated" ∧ samplePayment.GetEventType ≠ "OrderUpdated" ∧
    samplePayment.GetEventType ≠ "OrderDeleted" ∧ samplePayment.GetEventType ≠ "UserCreated" ∧
    samplePayment.GetEventType ≠ "UserUpdated" ∧ samplePayment.GetEventType ≠ "UserDeleted" ∧
    sampleOrder.ApplyEvent samplePayment = (sampleOrder, none) ∧
    sampleUser.ApplyEvent samplePayment = (sampleUser, none) :=
  ⟨by decide, by decide, by decide, by decide, by decide, by decide,
    ApplyEvent_unrecognized_noop sampleOrder sampleUser samplePayment samplePayment
      (by decide) (by decide) (by decide) (by decide) (by decide) (by decide)⟩

/-! ## Value objects -/

theorem Address_Equals_iff (a b : Address) :
    a.Equals b = true ↔ a.street = b.street ∧ a.city = b.city ∧ a.zipCode = b.zipCode := by
  unfold Address.Equals
  by_cases h1 : a.street = b.street <;> by_cases h2 : a.city = b.city <;>
    by_cases h3 : a.zipCode = b.zipCode <;> simp [h1, h2, h3]

theorem Email_Equals_iff (a b : Email) :
    a.Equals b = true ↔ a.address = b.address ∧ a.verified = b.verified := by
  unfold Email.Equals
  by_cases h1 : a.address = b.address <;> by_cases h2 : a.verified = b.verified <;>
    simp [h1, h2]

theorem Phone_Equals_iff (a b : Phone) :
    a.Equals b = true ↔ a.number = b.number ∧ a.countryCode = b.countryCode := by
  unfold Phone.Equals
  by_cases h1 : a.number = b.number <;> by_cases h2 : a.countryCode = b.countryCode <;>
    simp [h1, h2]

/-- C15. Value-object equality is structural.  `Address.Equals` holds iff street, city and
zip code are pairwise equal, so two addresses built by `NewAddress` are equal iff their three
arguments are; `Email.Equals` holds iff address and verified flag are equal; `Phone.Equals`
holds iff number and country code are equal.  Hence each `Equals` holds exactly between equal
values, and is reflexive, symmetric and transitive. -/
theorem Equals_structural :
    ((∀ a b : Address,
        a.Equals b = true ↔ a.street = b.street ∧ a.city = b.city ∧ a.zipCode = b.zipCode) ∧
      (∀ s c z s2 c2 z2 : String,
        (NewAddress s c z).Equals (NewAddress s2 c2 z2) = true ↔ s = s2 ∧ c = c2 ∧ z = z2) ∧
      (∀ a b : Address, a.Equals b = true ↔ a = b) ∧
      (∀ a : Address, a.Equals a = true) ∧
      (∀ a b : Address, a.Equals b = b.Equals a) ∧
      (∀ a b c : Address, a.Equals b = true → b.Equals c = true → a.Equals c = true)) ∧
    ((∀ a b : Email, a.Equals b = true ↔ a.address = b.address ∧ a.verified = b.verified) ∧
      (∀ a b : Email, a.Equals b = true ↔ a = b) ∧
      (∀ a : Email, a.Equals a = true) ∧
      (∀ a b : Email, a.Equals b = b.Equals a) ∧
      (∀ a b c : Email, a.Equals b = true → b.Equals c = true → a.Equals c = true)) ∧
    ((∀ a b : Phone, a.Equals b = true ↔ a.number = b.number ∧ a.countryCode = b.countryCode) ∧
      (∀ a b : Phone, a.Equals b = true ↔ a = b) ∧
      (∀ a : Phone, a.Equals a = true) ∧
      (∀ a b : Phone, a.Equals b = b.Equals a) ∧
      (∀ a b c : Phone, a.Equals b = true → b.Equals c = true → a.Equals c = true)) := by
  have hA : ∀ a b : Address, a.Equals b = true ↔ a = b := by
    intro a b
    rw [Address_Equals_iff]
    cases a; cases b; simp
  have hE : ∀ a b : Email, a.Equals b = true ↔ a = b := by
    intro a b
    rw [Email_Equals_iff]
    cases a; cases b; simp
  have hP : ∀ a b : Phone, a.Equals b = true ↔ a = b := by
    intro a b
    rw [Phone_Equals_iff]
    cases a; cases b; simp
  refine ⟨⟨Address_Equals_iff, ?_, hA, ?_, ?_, ?_⟩, ⟨Email_Equals_iff, hE, ?_, ?_, ?_⟩,
    ⟨Phone_Equals_iff, hP, ?_, ?_, ?_⟩⟩
  · intro s c z s2 c2 z2
    rw [Address_Equals_iff]
    rfl
  · intro a
    exact (hA a a).mpr rfl
  · intro a b
    rw [Bool.eq_iff_iff, hA, hA]
    exact eq_comm
  · intro a b c hab hbc
    rw [hA] at hab hbc ⊢
    exact hab.trans hbc
  · intro a
    exact (hE a a).mpr rfl
  · intro a b
    rw [Bool.eq_iff_iff, hE, hE]
    exact eq_comm
  · intro a b c hab hbc
    rw [hE] at hab hbc ⊢
    exact hab.trans hbc
  · intro a
    exact (hP a a).mpr rfl
  · intro a b
    rw [Bool.eq_iff_iff, hP, hP]
    exact eq_comm
  · intro a b c hab hbc
    rw [hP] at hab hbc ⊢
    exact hab.trans hbc

/-- A run of C15: transitivity of the three `Equals` on equal sample values, and two
addresses that differ in the zip code only. -/
theorem Equals_structural_witness :
    (NewAddress "1 Main St" "Springfield" "12345").Equals
        (NewAddress "1 Main St" "Springfield" "12345") = true ∧
    (NewEmail "ann@example.org" true).Equals (NewEmail "ann@example.org" true) = true ∧
    (NewPhone "5550100" "1").Equals (NewPhone "5550100" "1") = true ∧
    ¬ ((NewAddress "1 Main St" "Springfield" "12345").Equals
        (NewAddress "1 Main St" "Springfield" "12346") = true) :=
  have hA : (NewAddress "1 Main St" "Springfield" "12345").Equals
      (NewAddress "1 Main St" "Springfield" "12345") = true := by decide
  have hE : (NewEmail "ann@example.org" true).Equals (NewEmail "ann@example.org" true) = true := by
    decide
  have hP : (NewPhone "5550100" "1").Equals (NewPhone "5550100" "1") = true := by decide
  ⟨Equals_structural.1.2.2.2.2.2 _ _ _ hA hA, Equals_structural.2.1.2.2.2.2 _ _ _ hE hE,
    Equals_structural.2.2.2.2.2.2 _ _ _ hP hP,
    fun h => absurd ((Equals_structural.1.2.1 _ _ _ _ _ _).mp h).2.2 (by decide)⟩

/-! ## The transition functions never fail -/

/-- C18. The transition function never fails.  For every `OrderReadModel` or `UserReadModel`
and every event, whatever its type and payload, `ApplyEvent` returns no error; hence
`HandleEvent` over the in-memory repository returns no error for every event and every
repository state, in both services.  In particular an `OrderCreated` event with an ill-typed
payload and one with an empty payload are applied and handled without error. -/
theorem ApplyEvent_HandleEvent_never_fail :
    (∀ (m : OrderReadModel) (event : DomainEvent), (m.ApplyEvent event).2 = none) ∧
    (∀ (m : UserReadModel) (event : DomainEvent), (m.ApplyEvent event).2 = none) ∧
    (∀ (now : Time) (r : MemoryOrderRepository) (event : DomainEvent),
      (memoryOrderService.HandleEvent now r event).2 = none) ∧
    (∀ (now : Time) (r : MemoryUserRepository) (event : DomainEvent),
      (memoryUserService.HandleEvent now r event).2 = none) ∧
    (sampleOrder.ApplyEvent sampleMalformed).2 = none ∧
    (sampleOrder.ApplyEvent
      { GetAggregateID := "o1", GetEventType := "OrderCreated", GetData := [] }).2 = none ∧
    (memoryOrderService.HandleEvent 7 NewMemoryOrderRepository sampleMalformed).2 = none := by
  have ho : ∀ (m : OrderReadModel) (event : DomainEvent), (m.ApplyEvent event).2 = none := by
    intro m event
    unfold OrderReadModel.ApplyEvent OrderReadModel.applyCreated OrderReadModel.applyUpdated
      OrderReadModel.applyDeleted
    split_ifs <;> rfl
  have hu : ∀ (m : UserReadModel) (event : DomainEvent), (m.ApplyEvent event).2 = none := by
    intro m event
    unfold UserReadModel.ApplyEvent UserReadModel.applyCreated UserReadModel.applyUpdated
      UserReadModel.applyDeleted
    split_ifs <;> rfl
  have hho : ∀ (now : Time) (r : MemoryOrderRepository) (event : DomainEvent),
      (memoryOrderService.HandleEvent now r event).2 = none := by
    intro now r event
    rw [memoryOrderService_HandleEvent]
    rfl
  have hhu : ∀ (now : Time) (r : MemoryUserRepository) (event : DomainEvent),
      (memoryUserService.HandleEvent now r event).2 = none := by
    intro now r event
    rw [memoryUserService_HandleEvent]
    rfl
  exact ⟨ho, hu, hho, hhu, ho _ _, ho _ _, hho _ _ _⟩

/-! ## The key/id invariant along runs of the services -/

theorem order_keyedBy_HandleEvent (now : Time) (r : MemoryOrderRepository) (event : DomainEvent)
    (h : GoMap.KeyedBy OrderReadModel.GetID r.models) :
    GoMap.KeyedBy OrderReadModel.GetID (memoryOrderService.HandleEvent now r event).1.models := by
  rw [order_HandleEvent_eq_Save]
  exact GoMap.keyedBy_set OrderReadModel.GetID r.models _ h

theorem user_keyedBy_HandleEvent (now : Time) (r : MemoryUserRepository) (event : DomainEvent)
    (h : GoMap.KeyedBy UserReadModel.GetID r.models) :
    GoMap.KeyedBy UserReadModel.GetID (memoryUserService.HandleEvent now r event).1.models := by
  rw [user_HandleEvent_eq_Save]
  exact GoMap.keyedBy_set UserReadModel.GetID r.models _ h

theorem order_keyedBy_serviceStep (r : MemoryOrderRepository) (c : OrderServiceCall)
    (h : GoMap.KeyedBy OrderReadModel.GetID r.models) :
    GoMap.KeyedBy OrderReadModel.GetID (r.serviceStep c).models := by
  cases c with
  | Save model => exact GoMap.keyedBy_set OrderReadModel.GetID r.models model h
  | Delete d => exact GoMap.keyedBy_delete OrderReadModel.GetID r.models d h
  | HandleEvent now event => exact order_keyedBy_HandleEvent now r event h

theorem user_keyedBy_serviceStep (r : MemoryUserRepository) (c : UserServiceCall)
    (h : GoMap.KeyedBy UserReadModel.GetID r.models) :
    GoMap.KeyedBy UserReadModel.GetID (r.serviceStep c).models := by
  cases c with
  | Save model => exact GoMap.keyedBy_set UserReadModel.GetID r.models model h
  | Delete d => exact GoMap.keyedBy_delete UserReadModel.GetID r.models d h
  | HandleEvent now event => exact user_keyedBy_HandleEvent now r event h

theorem order_keyedBy_serviceRun (calls : List OrderServiceCall) :
    GoMap.KeyedBy OrderReadModel.GetID (MemoryOrderRepository.serviceRun calls).models := by
  have key : ∀ (cs : List OrderServiceCall) (r : MemoryOrderRepository),
      GoMap.KeyedBy OrderReadModel.GetID r.models →
      GoMap.KeyedBy OrderReadModel.GetID
        (cs.foldl MemoryOrderRepository.serviceStep r).models := by
    intro cs
    induction cs with
    | nil => intro r hr; simpa using hr
    | cons c rest ih =>
      intro r hr
      rw [List.foldl_cons]
      exact ih _ (order_keyedBy_serviceStep r c hr)
  exact key calls NewMemoryOrderRepository (GoMap.keyedBy_nil _)

theorem user_keyedBy_serviceRun (calls : List UserServiceCall) :
    GoMap.KeyedBy UserReadModel.GetID (MemoryUserRepository.serviceRun calls).models := by
  have key : ∀ (cs : List UserServiceCall) (r : MemoryUserRepository),
      GoMap.KeyedBy UserReadModel.GetID r.models →
      GoMap.KeyedBy UserReadModel.GetID
        (cs.foldl MemoryUserRepository.serviceStep r).models := by
    intro cs
    induction cs with
    | nil => intro r hr; simpa using hr
    | cons c rest ih =>
      intro r hr
      rw [List.foldl_cons]
      exact ih _ (user_keyedBy_serviceStep r c hr)
  exact key calls NewMemoryUserRepository (GoMap.keyedBy_nil _)

theorem order_loaded_id (now : Time) (r : MemoryOrderRepository) (a : String)
    (h : GoMap.KeyedBy OrderReadModel.GetID r.models) :
    ((r.FindByID a).1.getD (NewOrderReadModel now a)).GetID = a := by
  rw [order_FindByID_fst]
  exact GoMap.keyedBy_getD_id OrderReadModel.GetID r.models a _ h rfl

theorem user_loaded_id (now : Time) (r : MemoryUserRepository) (a : String)
    (h : GoMap.KeyedBy UserReadModel.GetID r.models) :
    ((r.FindByID a).1.getD (NewUserReadModel now a)).GetID = a := by
  rw [user_FindByID_fst]
  exact GoMap.keyedBy_getD_id UserReadModel.GetID r.models a _ h rfl

theorem order_FindByID_HandleEvent_ne (now : Time) (r : MemoryOrderRepository)
    (event : DomainEvent) (j : String) (h : GoMap.KeyedBy OrderReadModel.GetID r.models)
    (hj : j ≠ event.GetAggregateID) :
    (memoryOrderService.HandleEvent now r event).1.FindByID j = r.FindByID j := by
  rw [order_HandleEvent_eq_Save]
  apply order_FindByID_Save_ne
  rw [order_loaded_id now r event.GetAggregateID h]
  exact hj

theorem user_FindByID_HandleEvent_ne (now : Time) (r : MemoryUserRepository)
    (event : DomainEvent) (j : String) (h : GoMap.KeyedBy UserReadModel.GetID r.models)
    (hj : j ≠ event.GetAggregateID) :
    (memoryUserService.HandleEvent now r event).1.FindByID j = r.FindByID j := by
  rw [user_HandleEvent_eq_Save]
  apply user_FindByID_Save_ne
  rw [user_loaded_id now r event.GetAggregateID h]
  exact hj

theorem order_FindByID_HandleEvent_self (now : Time) (r : MemoryOrderRepository)
    (event : DomainEvent) :
    (memoryOrderService.HandleEvent now r event).1.FindByID event.GetAggregateID
      = (some ((r.FindByID event.GetAggregateID).1.getD
          (NewOrderReadModel now event.GetAggregateID)), none) := by
  rw [order_HandleEvent_eq_Save]
  exact order_FindByID_Save_loaded r event.GetAggregateID _ rfl

theorem user_FindByID_HandleEvent_self (now : Time) (r : MemoryUserRepository)
    (event : DomainEvent) :
    (memoryUserService.HandleEvent now r event).1.FindByID event.GetAggregateID
      = (some ((r.FindByID event.GetAggregateID).1.getD
          (NewUserReadModel now event.GetAggregateID)), none) := by
  rw [user_HandleEvent_eq_Save]
  exact user_FindByID_Save_loaded r event.GetAggregateID _ rfl

theorem order_HandleEvent_stored (now : Time) (r : MemoryOrderRepository) (event : DomainEvent)
    (m : OrderReadModel) (h : GoMap.KeyedBy OrderReadModel.GetID r.models)
    (hm : r.FindByID event.GetAggregateID = (some m, none)) :
    (memoryOrderService.HandleEvent now r event).1 = r := by
  have hget : GoMap.get? r.models event.GetAggregateID = some m :=
    (order_FindByID_eq_some r _ m).mp hm
  have hid : m.GetID = event.GetAggregateID :=
    GoMap.keyedBy_id_of_get? OrderReadModel.GetID r.models _ m h hget
  rw [order_HandleEvent_eq_Save, hm]
  simp only [Option.getD_some, MemoryOrderRepository.Save, hid]
  rw [GoMap.set_eq_self r.models _ m hget]

/-- C16. Key/id consistency.  In every state of the in-memory order repository reached from
`NewMemoryOrderRepository` by a sequence of `Save`, `Delete` and `HandleEvent` calls, every
entry stored under a key `k` holds a model whose id is `k`; the model `FindByID k` returns has
id `k`; and `HandleEvent` of an event is a `Save` of a model whose id is the event's
aggregate id, which `FindByID` of that id then returns. -/
theorem stored_key_is_model_id (calls : List OrderServiceCall) :
    (∀ kv ∈ (MemoryOrderRepository.serviceRun calls).models, kv.2.GetID = kv.1) ∧
    (∀ (k : String) (m : OrderReadModel),
      (MemoryOrderRepository.serviceRun calls).FindByID k = (some m, none) → m.GetID = k) ∧
    (∀ (now : Time) (event : DomainEvent), ∃ model : OrderReadModel,
      model.GetID = event.GetAggregateID ∧
      memoryOrderService.HandleEvent now (MemoryOrderRepository.serviceRun calls) event
        = (MemoryOrderRepository.serviceRun calls).Save model ∧
      (memoryOrderService.HandleEvent now (MemoryOrderRepository.serviceRun calls)
          event).1.FindByID event.GetAggregateID = (some model, none)) := by
  have hk := order_keyedBy_serviceRun calls
  refine ⟨hk.2, ?_, ?_⟩
  · intro k m hm
    exact GoMap.keyedBy_id_of_get? OrderReadModel.GetID _ k m hk
      ((order_FindByID_eq_some _ k m).mp hm)
  · intro now event
    exact ⟨_, order_loaded_id now _ event.GetAggregateID hk, order_HandleEvent_eq_Save now _ event,
      order_FindByID_HandleEvent_self now _ event⟩

/-- A run of C16: after saving the sample order, handling an `OrderUpdated` event for it and
deleting another id, the model found under `"o1"` has id `"o1"`. -/
theorem stored_key_is_model_id_witness :
    (MemoryOrderRepository.serviceRun
        [OrderServiceCall.Save sampleOrder, OrderServiceCall.HandleEvent 7 sampleUpdated,
          OrderServiceCall.Delete "zz"]).FindByID "o1" = (some sampleOrder, none) ∧
    sampleOrder.GetID = "o1" :=
  have hfind : (MemoryOrderRepository.serviceRun
      [OrderServiceCall.Save sampleOrder, OrderServiceCall.HandleEvent 7 sampleUpdated,
        OrderServiceCall.Delete "zz"]).FindByID "o1" = (some sampleOrder, none) := by
    decide
  ⟨hfind, (stored_key_is_model_id _).2.1 "o1" sampleOrder hfind⟩

theorem user_FindByID_Delete_ne (r : MemoryUserRepository) (d j : String) (hj : j ≠ d) :
    (r.Delete d).1.FindByID j = r.FindByID j := by
  simp [MemoryUserRepository.Delete, MemoryUserRepository.FindByID,
    GoMap.get?_delete_ne _ _ _ hj]

/-- C17. Operations on one key do not affect other keys.  In every state of the in-memory
order repository, `Save m` leaves `FindByID j` as it was for every `j` other than `m`'s id and
`Delete d` leaves `FindByID j` as it was for every `j` other than `d`; in every state reached
by `Save`, `Delete` and `HandleEvent` calls, `HandleEvent` of an event leaves `FindByID j` as
it was for every `j` other than the event's aggregate id.  The same holds for the in-memory
user repository and its service. -/
theorem other_keys_unchanged (r : MemoryOrderRepository) (ur : MemoryUserRepository)
    (calls : List OrderServiceCall) (ucalls : List UserServiceCall)
    (m : OrderReadModel) (um : UserReadModel) (d : String) (now : Time) (event : DomainEvent)
    (j : String) :
    ((j ≠ m.GetID → (r.Save m).1.FindByID j = r.FindByID j) ∧
      (j ≠ d → (r.Delete d).1.FindByID j = r.FindByID j) ∧
      (j ≠ event.GetAggregateID →
        (memoryOrderService.HandleEvent now (MemoryOrderRepository.serviceRun calls)
            event).1.FindByID j
          = (MemoryOrderRepository.serviceRun calls).FindByID j)) ∧
    ((j ≠ um.GetID → (ur.Save um).1.FindByID j = ur.FindByID j) ∧
      (j ≠ d → (ur.Delete d).1.FindByID j = ur.FindByID j) ∧
      (j ≠ event.GetAggregateID →
        (memoryUserService.HandleEvent now (MemoryUserRepository.serviceRun ucalls)
            event).1.FindByID j
          = (MemoryUserRepository.serviceRun ucalls).FindByID j)) :=
  ⟨⟨order_FindByID_Save_ne r m j, order_FindByID_Delete_ne r d j,
      order_FindByID_HandleEvent_ne now _ event j (order_keyedBy_serviceRun calls)⟩,
    ⟨user_FindByID_Save_ne ur um j, user_FindByID_Delete_ne ur d j,
      user_FindByID_HandleEvent_ne now _ event j (user_keyedBy_serviceRun ucalls)⟩⟩

/-- A run of C17: with the sample order stored under `"o1"`, saving a fresh model for `"o2"`,
deleting `"o2"` and handling an event for `"o2"` each leave `FindByID "o1"` as it was. -/
theorem other_keys_unchanged_witness :
    "o1" ≠ (NewOrderReadModel 7 "o2").GetID ∧ "o1" ≠ "o2" ∧
    ((MemoryOrderRepository.serviceRun [OrderServiceCall.Save sampleOrder]).Save
        (NewOrderReadModel 7 "o2")).1.FindByID "o1"
      = (MemoryOrderRepository.serviceRun [OrderServiceCall.Save sampleOrder]).FindByID "o1" ∧
    ((MemoryOrderRepository.serviceRun [OrderServiceCall.Save sampleOrder]).Delete
        "o2").1.FindByID "o1"
      = (MemoryOrderRepository.serviceRun [OrderServiceCall.Save sampleOrder]).FindByID "o1" ∧
    (memoryOrderService.HandleEvent 7
        (MemoryOrderRepository.serviceRun [OrderServiceCall.Save sampleOrder])
        { GetAggregateID := "o2", GetEventType := "OrderCreated", GetData := [] }).1.FindByID "o1"
      = (MemoryOrderRepository.serviceRun [OrderServiceCall.Save sampleOrder]).FindByID "o1" :=
  have h := other_keys_unchanged
    (MemoryOrderRepository.serviceRun [OrderServiceCall.Save sampleOrder])
    NewMemoryUserRepository [OrderServiceCall.Save sampleOrder] []
    (NewOrderReadModel 7 "o2") sampleUser "o2" 7
    { GetAggregateID := "o2", GetEventType := "OrderCreated", GetData := [] } "o1"
  ⟨by decide, by decide, h.1.1 (by decide), h.1.2.1 (by decide), h.1.2.2 (by decide)⟩

/-- C13 fails on the code: a `PaymentReceived` event for `"o1"` handled over a new repository
returns no error but stores a fresh model: `FindByID "o1"` goes from no model with
`ErrReadModelNotFound` to that model, and `FindAll` from the empty list to a list of one. -/
theorem HandleEvent_unrecognized_stores_fresh :
    samplePayment.GetEventType ≠ "OrderCreated" ∧ samplePayment.GetEventType ≠ "OrderUpdated" ∧
    samplePayment.GetEventType ≠ "OrderDeleted" ∧
    (memoryOrderService.HandleEvent 7 NewMemoryOrderRepository samplePayment).2 = none ∧
    NewMemoryOrderRepository.FindByID "o1" = (none, some ErrReadModelNotFound) ∧
    (memoryOrderService.HandleEvent 7 NewMemoryOrderRepository samplePayment).1.FindByID "o1"
      = (some (NewOrderReadModel 7 "o1"), none) ∧
    NewMemoryOrderRepository.FindAll = ([], none) ∧
    (memoryOrderService.HandleEvent 7 NewMemoryOrderRepository samplePayment).1.FindAll
      = ([NewOrderReadModel 7 "o1"], none) := by
  have hstate : (memoryOrderService.HandleEvent 7 NewMemoryOrderRepository samplePayment)
      = (NewMemoryOrderRepository.Save (NewOrderReadModel 7 "o1")) := by
    rw [order_HandleEvent_eq_Save]
    rfl
  refine ⟨by decide, by decide, by decide, ?_, rfl, ?_, rfl, ?_⟩
  · rw [hstate]
    rfl
  · rw [hstate]
    exact order_FindByID_Save NewMemoryOrderRepository (NewOrderReadModel 7 "o1")
  · rw [hstate]
    rfl

/-- C13, amended.  In every state of the in-memory order repository reached by `Save`,
`Delete` and `HandleEvent` calls and for every event whose type is none of `OrderCreated`,
`OrderUpdated`, `OrderDeleted`, `HandleEvent` returns no error and leaves `FindByID` of every
id other than the event's aggregate id as it was.  When the aggregate id was stored before,
the repository is left as it was, so `FindByID` of every id and `FindAll` return the same.
When it was not stored, `HandleEvent` stores the freshly constructed model under it. -/
theorem HandleEvent_unrecognized_effect (calls : List OrderServiceCall) (now : Time)
    (event : DomainEvent)
    (h1 : event.GetEventType ≠ "OrderCreated") (h2 : event.GetEventType ≠ "OrderUpdated")
    (h3 : event.GetEventType ≠ "OrderDeleted") :
    (memoryOrderService.HandleEvent now (MemoryOrderRepository.serviceRun calls) event).2
      = none ∧
    (∀ j : String, j ≠ event.GetAggregateID →
      (memoryOrderService.HandleEvent now (MemoryOrderRepository.serviceRun calls)
          event).1.FindByID j
        = (MemoryOrderRepository.serviceRun calls).FindByID j) ∧
    (∀ m : OrderReadModel,
      (MemoryOrderRepository.serviceRun calls).FindByID event.GetAggregateID = (some m, none) →
      (memoryOrderService.HandleEvent now (MemoryOrderRepository.serviceRun calls) event).1
          = MemoryOrderRepository.serviceRun calls ∧
      (∀ j : String,
        (memoryOrderService.HandleEvent now (MemoryOrderRepository.serviceRun calls)
            event).1.FindByID j
          = (MemoryOrderRepository.serviceRun calls).FindByID j) ∧
      (memoryOrderService.HandleEvent now (MemoryOrderRepository.serviceRun calls)
          event).1.FindAll
        = (MemoryOrderRepository.serviceRun calls).FindAll) ∧
    ((MemoryOrderRepository.serviceRun calls).FindByID event.GetAggregateID
        = (none, some ErrReadModelNotFound) →
      (memoryOrderService.HandleEvent now (MemoryOrderRepository.serviceRun calls)
          event).1.FindByID event.GetAggregateID
        = (some (NewOrderReadModel now event.GetAggregateID), none)) := by
  have hk := order_keyedBy_serviceRun calls
  have happ : ∀ x : OrderReadModel, x.ApplyEvent event = (x, none) := by
    intro x
    simp [OrderReadModel.ApplyEvent, h1, h2, h3]
  refine ⟨?_, ?_, ?_, ?_⟩
  · rw [memoryOrderService_HandleEvent, happ]
    rfl
  · intro j hj
    exact order_FindByID_HandleEvent_ne now _ event j hk hj
  · intro m hm
    have hsame := order_HandleEvent_stored now _ event m hk hm
    refine ⟨hsame, ?_, ?_⟩
    · intro j
      rw [hsame]
    · rw [hsame]
  · intro hnone
    rw [order_FindByID_HandleEvent_self, hnone]
    rfl

/-- A run of the amended C13: a `PaymentReceived` event for `"o1"` handled while the sample
order is stored under `"o1"` leaves the repository as it was. -/
theorem HandleEvent_unrecognized_effect_witness :
    samplePayment.GetEventType ≠ "OrderCreated" ∧ samplePayment.GetEventType ≠ "OrderUpdated" ∧
    samplePayment.GetEventType ≠ "OrderDeleted" ∧
    (MemoryOrderRepository.serviceRun [OrderServiceCall.Save sampleOrder]).FindByID
        samplePayment.GetAggregateID = (some sampleOrder, none) ∧
    (memoryOrderService.HandleEvent 7
        (MemoryOrderRepository.serviceRun [OrderServiceCall.Save sampleOrder]) samplePayment).1
      = MemoryOrderRepository.serviceRun [OrderServiceCall.Save sampleOrder] ∧
    (NewMemoryOrderRepository.FindByID samplePayment.GetAggregateID
        = (none, some ErrReadModelNotFound)) ∧
    (memoryOrderService.HandleEvent 7 (MemoryOrderRepository.serviceRun []) samplePayment
        ).1.FindByID samplePayment.GetAggregateID
      = (some (NewOrderReadModel 7 samplePayment.GetAggregateID), none) :=
  have hfind : (MemoryOrderRepository.serviceRun [OrderServiceCall.Save sampleOrder]).FindByID
      samplePayment.GetAggregateID = (some sampleOrder, none) := by decide
  ⟨by decide, by decide, by decide, hfind,
    ((HandleEvent_unrecognized_effect [OrderServiceCall.Save sampleOrder] 7 samplePayment
      (by decide) (by decide) (by decide)).2.2.1 sampleOrder hfind).1,
    rfl,
    (HandleEvent_unrecognized_effect [] 7 samplePayment
      (by decide) (by decide) (by decide)).2.2.2 rfl⟩

/-! ## The base fields along sequences of handled events -/

theorem order_handleAll_keeps (events : List (Time × DomainEvent)) (r : MemoryOrderRepository)
    (a : String) (m0 : OrderReadModel) (hk : GoMap.KeyedBy OrderReadModel.GetID r.models)
    (h : r.FindByID a = (some m0, none)) :
    (r.handleAll events).FindByID a = (some m0, none) := by
  induction events generalizing r with
  | nil => simpa [MemoryOrderRepository.handleAll] using h
  | cons ev rest ih =>
    have hstep : (memoryOrderService.HandleEvent ev.1 r ev.2).1.FindByID a = (some m0, none) := by
      by_cases ha : a = ev.2.GetAggregateID
      · subst ha
        rw [order_FindByID_HandleEvent_self, h]
        rfl
      · rw [order_FindByID_HandleEvent_ne ev.1 r ev.2 a hk ha]
        exact h
    exact ih _ (order_keyedBy_HandleEvent ev.1 r ev.2 hk) hstep

theorem user_handleAll_keeps (events : List (Time × DomainEvent)) (r : MemoryUserRepository)
    (a : String) (m0 : UserReadModel) (hk : GoMap.KeyedBy UserReadModel.GetID r.models)
    (h : r.FindByID a = (some m0, none)) :
    (r.handleAll events).FindByID a = (some m0, none) := by
  induction events generalizing r with
  | nil => simpa [MemoryUserRepository.handleAll] using h
  | cons ev rest ih =>
    have hstep : (memoryUserService.HandleEvent ev.1 r ev.2).1.FindByID a = (some m0, none) := by
      by_cases ha : a = ev.2.GetAggregateID
      · subst ha
        rw [user_FindByID_HandleEvent_self, h]
        rfl
      · rw [user_FindByID_HandleEvent_ne ev.1 r ev.2 a hk ha]
        exact h
    exact ih _ (user_keyedBy_HandleEvent ev.1 r ev.2 hk) hstep

/-- C14. Base-field invariant.  For every `OrderReadModel` or `UserReadModel` and every event
of any type, `ApplyEvent` leaves the model's id and type as they were and its version
afterwards is at least its version before.  Hence, from any state reached by `Save`, `Delete`
and `HandleEvent` calls in which an aggregate id is stored, after any sequence of
`HandleEvent` calls that id is still stored, with the same id and type and a version that is
not smaller; in both services. -/
theorem base_fields_invariant (om : OrderReadModel) (um : UserReadModel) (event : DomainEvent)
    (ocalls : List OrderServiceCall) (ucalls : List UserServiceCall)
    (oevents uevents : List (Time × DomainEvent)) (a b : String)
    (m0 : OrderReadModel) (u0 : UserReadModel)
    (ho : (MemoryOrderRepository.serviceRun ocalls).FindByID a = (some m0, none))
    (hu : (MemoryUserRepository.serviceRun ucalls).FindByID b = (some u0, none)) :
    ((om.ApplyEvent event).1.ReadModel.id = om.ReadModel.id ∧
      (om.ApplyEvent event).1.ReadModel.type = om.ReadModel.type ∧
      om.ReadModel.version ≤ (om.ApplyEvent event).1.ReadModel.version) ∧
    ((um.ApplyEvent event).1.ReadModel.id = um.ReadModel.id ∧
      (um.ApplyEvent event).1.ReadModel.type = um.ReadModel.type ∧
      um.ReadModel.version ≤ (um.ApplyEvent event).1.ReadModel.version) ∧
    (∃ m1 : OrderReadModel,
      ((MemoryOrderRepository.serviceRun ocalls).handleAll oevents).FindByID a
        = (some m1, none) ∧
      m1.ReadModel.id = m0.ReadModel.id ∧ m1.ReadModel.type = m0.ReadModel.type ∧
      m0.ReadModel.version ≤ m1.ReadModel.version) ∧
    (∃ u1 : UserReadModel,
      ((MemoryUserRepository.serviceRun ucalls).handleAll uevents).FindByID b
        = (some u1, none) ∧
      u1.ReadModel.id = u0.ReadModel.id ∧ u1.ReadModel.type = u0.ReadModel.type ∧
      u0.ReadModel.version ≤ u1.ReadModel.version) := by
  refine ⟨?_, ?_, ?_, ?_⟩
  · rw [order_ApplyEvent_eq]
    exact ⟨rfl, rfl, le_refl _⟩
  · rw [user_ApplyEvent_eq]
    exact ⟨rfl, rfl, le_refl _⟩
  · exact ⟨m0, order_handleAll_keeps oevents _ a m0 (order_keyedBy_serviceRun ocalls) ho,
      rfl, rfl, le_refl _⟩
  · exact ⟨u0, user_handleAll_keeps uevents _ b u0 (user_keyedBy_serviceRun ucalls) hu,
      rfl, rfl, le_refl _⟩

/-- A run of C14: with the sample order and the sample user stored, a created, an updated, an
unrelated and a deleted event are handled in turn. -/
theorem base_fields_invariant_witness :
    (MemoryOrderRepository.serviceRun [OrderServiceCall.Save sampleOrder]).FindByID "o1"
      = (some sampleOrder, none) ∧
    (MemoryUserRepository.serviceRun [UserServiceCall.Save sampleUser]).FindByID "u7"
      = (some sampleUser, none) ∧
    (∃ m1 : OrderReadModel,
      ((MemoryOrderRepository.serviceRun [OrderServiceCall.Save sampleOrder]).handleAll
          [(7, sampleCreated), (8, sampleUpdated), (9, samplePayment),
            (10, sampleDeleted)]).FindByID "o1" = (some m1, none) ∧
      m1.ReadModel.id = sampleOrder.ReadModel.id ∧
      m1.ReadModel.type = sampleOrder.ReadModel.type ∧
      sampleOrder.ReadModel.version ≤ m1.ReadModel.version) :=
  have ho : (MemoryOrderRepository.serviceRun [OrderServiceCall.Save sampleOrder]).FindByID "o1"
      = (some sampleOrder, none) := by decide
  have hu : (MemoryUserRepository.serviceRun [UserServiceCall.Save sampleUser]).FindByID "u7"
      = (some sampleUser, none) := by decide
  ⟨ho, hu,
    (base_fields_invariant sampleOrder sampleUser sampleCreated
      [OrderServiceCall.Save sampleOrder] [UserServiceCall.Save sampleUser]
      [(7, sampleCreated), (8, sampleUpdated), (9, samplePayment), (10, sampleDeleted)]
      [] "o1" "u7" sampleOrder sampleUser ho hu).2.2.1⟩

end MicroGen
